import Mathlib

/-!
Verification development for the healthcare data normalization engine
(src/main.py).  The Python code is shallowly embedded: dictionaries become
association lists that keep insertion order, the single-pass row processor
becomes a step function on an explicit state record, and the only statement
in the program that can raise an uncaught exception (the integer coercion
of the prescription duration, which can hit an OverflowError on an infinite
float) is modelled with Except.  All field normalizers are translated from
the CPython semantics of the library calls they make:

* strptime with the concrete formats used by the program is modelled after
  the regexes CPython _strptime compiles for the directives that occur
  (Y 4 digits, m as 1[0-2]|0[1-9]|[1-9], d as 3[01]|[12][0-9]|0[1-9]|[1-9],
  H as 2[0-3]|[0-1][0-9]|[0-9], M and S as [0-5][0-9]|[0-9]), with ordered
  alternatives, backtracking, a full-consumption check and the calendar
  validation performed by the datetime constructor.
* strftime of a date with the Y-m-d format is modelled as glibc renders it:
  month and day zero-padded to two digits, the year unpadded decimal.
* float(str) is modelled exactly, as a decimal fraction num / 10 ^ exp, for
  ASCII literals, including signs, leading and trailing whitespace,
  underscores between digits, exponents, and the inf, infinity and nan
  keywords.  IEEE rounding and the overflow of finite literals beyond about
  1e308 to infinity are not modelled; no claim in this development depends
  on either.
-/

set_option maxHeartbeats 4000000
set_option maxRecDepth 4000

namespace HealthcareETL

/-! ### Association lists standing for Python dicts (insertion ordered) -/

/-- First-match lookup in an association list, the model of dict access. -/
def findA {α β : Type} [DecidableEq α] (k : α) : List (α × β) → Option β
  | [] => none
  | (a, b) :: t => if a = k then some b else findA k t

/-- Membership test, the model of the Python in operator on a dict. -/
def hasKey {α β : Type} [DecidableEq α] (k : α) (l : List (α × β)) : Bool :=
  (findA k l).isSome

/-- Update the value stored at a key in place, the model of dict assignment
to an existing key.  Keys of the lists produced by the processor occur at
most once, so mapping over all matches is the same as updating the first. -/
def updateA {α β : Type} [DecidableEq α] (k : α) (f : β → β) :
    List (α × β) → List (α × β)
  | [] => []
  | (a, b) :: t => if a = k then (a, f b) :: updateA k f t
                   else (a, b) :: updateA k f t

/-- Keys of an association list are pairwise distinct. -/
def NodupKeys {α β : Type} (l : List (α × β)) : Prop :=
  (l.map Prod.fst).Nodup

/-! ### Model of CPython float(str) over exact rationals -/

/-- Result of a successful Python float conversion: a finite value kept
exactly as a decimal fraction num / 10 ^ exp (not reduced), a signed
infinity, or nan. -/
inductive PyF : Type
  | finite (num : Int) (exp : Nat)
  | posInf
  | negInf
  | nan
deriving DecidableEq, Repr

/-- ASCII whitespace stripped by float(str): space, tab, and the newline,
carriage-return, vertical-tab and form-feed controls. -/
def isPyWs (c : Char) : Bool :=
  c = ' ' || c = '\t' || c = '\n' || c = '\r' || c = '\x0b' || c = '\x0c'

/-- Strip leading and trailing whitespace from a character list. -/
def stripPyWs (l : List Char) : List Char :=
  ((l.dropWhile isPyWs).reverse.dropWhile isPyWs).reverse

/-- Run of decimal digits with underscores allowed between digits, as the
Python numeric literal grammar accepts.  Returns the accumulated value, the
number of digits consumed, and the rest of the input.  An underscore that is
not both preceded and followed by a digit is left in the rest, where the
caller rejects it as trailing garbage, matching the CPython behaviour. -/
def digitsRun : List Char → Nat → Nat → (Nat × Nat × List Char)
  | [], acc, cnt => (acc, cnt, [])
  | [c], acc, cnt =>
    if c.isDigit then (acc * 10 + (c.toNat - 48), cnt + 1, [])
    else (acc, cnt, [c])
  | c :: d :: rest, acc, cnt =>
    if c.isDigit then
      digitsRun (d :: rest) (acc * 10 + (c.toNat - 48)) (cnt + 1)
    else if c = '_' && cnt ≠ 0 && d.isDigit then
      digitsRun rest (acc * 10 + (d.toNat - 48)) (cnt + 1)
    else (acc, cnt, c :: d :: rest)

/-- Lower-case a character list for the case-insensitive keywords. -/
def lowerL (l : List Char) : List Char := l.map Char.toLower

/-- Model of float(str): optional whitespace and sign, then inf, infinity
or nan case-insensitively, or a decimal literal with optional fraction and
exponent.  Returns none exactly when CPython raises ValueError (for ASCII
input; unicode digits and spaces are outside the model). -/
def pyFloatParse (s : String) : Option PyF :=
  let l := stripPyWs s.data
  let signAndRest : Bool × List Char :=
    match l with
    | '+' :: t => (false, t)
    | '-' :: t => (true, t)
    | t => (false, t)
  let neg := signAndRest.1
  let l1 := signAndRest.2
  let low := lowerL l1
  if low = ['i', 'n', 'f'] || low = ['i', 'n', 'f', 'i', 'n', 'i', 't', 'y'] then
    some (if neg then PyF.negInf else PyF.posInf)
  else if low = ['n', 'a', 'n'] then
    some PyF.nan
  else
    let ipart := digitsRun l1 0 0
    let iv := ipart.1
    let ic := ipart.2.1
    let r1 := ipart.2.2
    let fpart : Nat × Nat × List Char :=
      match r1 with
      | '.' :: t => digitsRun t 0 0
      | _ => (0, 0, r1)
    let fv := fpart.1
    let fc := fpart.2.1
    let r2 := fpart.2.2
    if ic + fc = 0 then none
    else
      let mag : Nat := iv * 10 ^ fc + fv
      let num : Int := if neg then -(mag : Int) else (mag : Int)
      match r2 with
      | [] => some (PyF.finite num fc)
      | e :: t =>
        if e = 'e' || e = 'E' then
          let esignAndRest : Bool × List Char :=
            match t with
            | '+' :: t2 => (false, t2)
            | '-' :: t2 => (true, t2)
            | t2 => (false, t2)
          let eneg := esignAndRest.1
          let epart := digitsRun esignAndRest.2 0 0
          let ev := epart.1
          let ec := epart.2.1
          let r3 := epart.2.2
          if ec = 0 || r3 ≠ [] then none
          else some
            (if eneg then PyF.finite num (fc + ev)
             else PyF.finite (num * (10 : Int) ^ ev) fc)
        else none

/-- Exceptions of the embedding.  The only uncaught exception the processor
can raise is the OverflowError from int applied to an infinite float. -/
inductive PyErr : Type
  | overflowError
deriving DecidableEq, Repr

/-- Model of the _safe_float helper: float(value) if value else 0.0, with
ValueError and TypeError mapped to 0.0.  float(str) itself never raises
anything else, so the function is total. -/
def safe_float (s : String) : PyF :=
  if s = "" then PyF.finite 0 0
  else
    match pyFloatParse s with
    | some f => f
    | none => PyF.finite 0 0

/-- Truncation toward zero of num / 10 ^ exp, the behaviour of int applied
to a float (Int.tdiv truncates toward zero). -/
def truncDec (num : Int) (exp : Nat) : Int := Int.tdiv num ((10 : Int) ^ exp)

/-- Model of int(float(v)) under the except (ValueError, TypeError) clause
of _process_prescription: a malformed literal or nan yields 0 because the
raised ValueError is caught, while an infinite value raises OverflowError,
which the clause does not catch, so it escapes. -/
def durParse (s : String) : Except PyErr Int :=
  match pyFloatParse s with
  | none => Except.ok 0
  | some (PyF.finite num exp) => Except.ok (truncDec num exp)
  | some PyF.posInf => Except.error PyErr.overflowError
  | some PyF.negInf => Except.error PyErr.overflowError
  | some PyF.nan => Except.ok 0

/-! ### Model of strptime for the formats the program uses -/

/-- Numeric value of an ASCII decimal digit character, none otherwise (the
regex class of the strptime directives; non-ASCII unicode digits are
outside the model). -/
def digit? (c : Char) : Option Nat :=
  if c = '0' then some 0
  else if c = '1' then some 1
  else if c = '2' then some 2
  else if c = '3' then some 3
  else if c = '4' then some 4
  else if c = '5' then some 5
  else if c = '6' then some 6
  else if c = '7' then some 7
  else if c = '8' then some 8
  else if c = '9' then some 9
  else none

/-- Directive Y of _strptime: exactly four decimal digits. -/
def pY4 : List Char → Option (Nat × List Char)
  | a :: b :: c :: d :: rest =>
    match digit? a, digit? b, digit? c, digit? d with
    | some w, some x, some y, some z =>
      some (w * 1000 + x * 100 + y * 10 + z, rest)
    | _, _, _, _ => none
  | _ => none

/-- Two-digit alternatives of directive m: 1[0-2] or 0[1-9]. -/
def pM2 : List Char → Option (Nat × List Char)
  | a :: b :: rest =>
    match digit? a, digit? b with
    | some x, some y =>
      if (x = 1 && y ≤ 2) || (x = 0 && 1 ≤ y) then some (10 * x + y, rest)
      else none
    | _, _ => none
  | _ => none

/-- One-digit alternative of directive m: [1-9]. -/
def pM1 : List Char → Option (Nat × List Char)
  | a :: rest =>
    match digit? a with
    | some x => if 1 ≤ x then some (x, rest) else none
    | none => none
  | [] => none

/-- Two-digit alternatives of directive d: 3[01], [12][0-9] or 0[1-9]. -/
def pD2 : List Char → Option (Nat × List Char)
  | a :: b :: rest =>
    match digit? a, digit? b with
    | some x, some y =>
      if (x = 3 && y ≤ 1) || x = 1 || x = 2 || (x = 0 && 1 ≤ y) then
        some (10 * x + y, rest)
      else none
    | _, _ => none
  | _ => none

/-- One-digit alternative of directive d: [1-9]. -/
def pD1 : List Char → Option (Nat × List Char)
  | a :: rest =>
    match digit? a with
    | some x => if 1 ≤ x then some (x, rest) else none
    | none => none
  | [] => none

/-- Two-digit alternatives of directive H: 2[0-3] or [0-1][0-9]. -/
def pH2 : List Char → Option (Nat × List Char)
  | a :: b :: rest =>
    match digit? a, digit? b with
    | some x, some y =>
      if (x = 2 && y ≤ 3) || x ≤ 1 then some (10 * x + y, rest) else none
    | _, _ => none
  | _ => none

/-- One-digit alternative of directive H (and of M and S): any digit. -/
def pN1 : List Char → Option (Nat × List Char)
  | a :: rest =>
    match digit? a with
    | some x => some (x, rest)
    | none => none
  | [] => none

/-- Two-digit alternative of directives M and S: [0-5][0-9]. -/
def pS2 : List Char → Option (Nat × List Char)
  | a :: b :: rest =>
    match digit? a, digit? b with
    | some x, some y => if x ≤ 5 then some (10 * x + y, rest) else none
    | _, _ => none
  | _ => none

/-- Gregorian leap-year rule used by the datetime constructor. -/
def isLeap (y : Nat) : Bool :=
  y % 4 = 0 && (y % 100 ≠ 0 || y % 400 = 0)

/-- Length of a month as the datetime constructor validates it. -/
def daysInMonth (y m : Nat) : Nat :=
  if m = 2 then (if isLeap y then 29 else 28)
  else if m = 4 || m = 6 || m = 9 || m = 11 then 30 else 31

/-- Validation the datetime constructor adds beyond the regex: the year is
at least MINYEAR = 1 and the day fits the month. -/
def validYMD (y m d : Nat) : Bool :=
  1 ≤ y && d ≤ daysInMonth y m

/-- Trailing d directive of formats ending in the day: the two d
alternatives in order, each required to consume the rest of the input. -/
def dayEnd (y m : Nat) (r2 : List Char) : Option (Nat × Nat × Nat) :=
  match pD2 r2 with
  | some (d, []) => some (y, m, d)
  | _ =>
    match pD1 r2 with
    | some (d, []) => some (y, m, d)
    | _ => none

/-- Trailing Y directive of formats ending in the year: four digits then the
end of the input. -/
def yearEnd (m d : Nat) (r3 : List Char) : Option (Nat × Nat × Nat) :=
  match pY4 r3 with
  | some (y, []) => some (y, m, d)
  | _ => none

/-- Structural match of format Y-m-d: the regex alternatives in their order
with backtracking and the full-consumption check strptime performs. -/
def pDateISOcore (l : List Char) : Option (Nat × Nat × Nat) :=
  match pY4 l with
  | some (y, '-' :: r1) =>
    match (match pM2 r1 with
           | some (m, '-' :: r2) => dayEnd y m r2
           | _ => none) with
    | some v => some v
    | none =>
      match pM1 r1 with
      | some (m, '-' :: r2) => dayEnd y m r2
      | _ => none
  | _ => none

/-- strptime with format Y-m-d: structural match then calendar check. -/
def strpDateISO (l : List Char) : Option (Nat × Nat × Nat) :=
  match pDateISOcore l with
  | some (y, m, d) => if validYMD y m d then some (y, m, d) else none
  | none => none

/-- Rest of format m/d/Y after the month: day alternatives, slash, year. -/
def dayPartUS (m : Nat) (r2 : List Char) : Option (Nat × Nat × Nat) :=
  match (match pD2 r2 with
         | some (d, '/' :: r3) => yearEnd m d r3
         | _ => none) with
  | some v => some v
  | none =>
    match pD1 r2 with
    | some (d, '/' :: r3) => yearEnd m d r3
    | _ => none

/-- Structural match of format m/d/Y. -/
def pDateUScore (l : List Char) : Option (Nat × Nat × Nat) :=
  match (match pM2 l with
         | some (m, '/' :: r2) => dayPartUS m r2
         | _ => none) with
  | some v => some v
  | none =>
    match pM1 l with
    | some (m, '/' :: r2) => dayPartUS m r2
    | _ => none

/-- strptime with format m/d/Y. -/
def strpDateUS (l : List Char) : Option (Nat × Nat × Nat) :=
  match pDateUScore l with
  | some (y, m, d) => if validYMD y m d then some (y, m, d) else none
  | none => none

/-- Rest of format d-m-Y after the day: month alternatives, hyphen, year. -/
def monthPartDMY (d : Nat) (r2 : List Char) : Option (Nat × Nat × Nat) :=
  match (match pM2 r2 with
         | some (m, '-' :: r3) => yearEnd m d r3
         | _ => none) with
  | some v => some v
  | none =>
    match pM1 r2 with
    | some (m, '-' :: r3) => yearEnd m d r3
    | _ => none

/-- Structural match of format d-m-Y. -/
def pDateDMYcore (l : List Char) : Option (Nat × Nat × Nat) :=
  match (match pD2 l with
         | some (d, '-' :: r2) => monthPartDMY d r2
         | _ => none) with
  | some v => some v
  | none =>
    match pD1 l with
    | some (d, '-' :: r2) => monthPartDMY d r2
    | _ => none

/-- strptime with format d-m-Y. -/
def strpDateDMY (l : List Char) : Option (Nat × Nat × Nat) :=
  match pDateDMYcore l with
  | some (y, m, d) => if validYMD y m d then some (y, m, d) else none
  | none => none

/-- Structural match of format Y/m/d. -/
def pDateYMDScore (l : List Char) : Option (Nat × Nat × Nat) :=
  match pY4 l with
  | some (y, '/' :: r1) =>
    match (match pM2 r1 with
           | some (m, '/' :: r2) => dayEnd y m r2
           | _ => none) with
    | some v => some v
    | none =>
      match pM1 r1 with
      | some (m, '/' :: r2) => dayEnd y m r2
      | _ => none
  | _ => none

/-- strptime with format Y/m/d. -/
def strpDateYMDS (l : List Char) : Option (Nat × Nat × Nat) :=
  match pDateYMDScore l with
  | some (y, m, d) => if validYMD y m d then some (y, m, d) else none
  | none => none

/-! ### Model of strftime Y-m-d as glibc renders it -/

/-- Decimal digit character. -/
def digitChar (n : Nat) : Char := Char.ofNat (48 + n)

/-- Zero-padded two-digit field, the glibc rendering of m and d. -/
def pad2 (n : Nat) : List Char := [digitChar (n / 10), digitChar (n % 10)]

/-- Unpadded decimal rendering of the year as glibc strftime emits Y for
years up to 9999 (the only years strptime can produce here). -/
def yearChars (y : Nat) : List Char :=
  if y < 10 then [digitChar y]
  else if y < 100 then [digitChar (y / 10), digitChar (y % 10)]
  else if y < 1000 then
    [digitChar (y / 100), digitChar (y / 10 % 10), digitChar (y % 10)]
  else
    [digitChar (y / 1000), digitChar (y / 100 % 10), digitChar (y / 10 % 10),
     digitChar (y % 10)]

/-- strftime Y-m-d of a parsed date. -/
def renderDate (y m d : Nat) : List Char :=
  yearChars y ++ '-' :: (pad2 m ++ '-' :: pad2 d)

/-- Python str.split on a hyphen, used by the format pre-checks. -/
def splitDash : List Char → List (List Char)
  | [] => [[]]
  | c :: t =>
    match splitDash t with
    | [] => [[]]
    | g :: gs => if c = '-' then [] :: (g :: gs) else (c :: g) :: gs

/-- Attempt the four date formats in the order of DATE_FORMATS, each guarded
by its structural pre-check: ISO always, US when a slash occurs, d-m-Y when
a hyphen occurs and splitting on hyphens yields three parts, and Y/m/d when
a slash occurs and the length is at least eight. -/
def dateAttempt (l : List Char) : Option (Nat × Nat × Nat) :=
  match strpDateISO l with
  | some v => some v
  | none =>
    match (if l.contains '/' then strpDateUS l else none) with
    | some v => some v
    | none =>
      match (if l.contains '-' && (splitDash l).length = 3 then
               strpDateDMY l else none) with
      | some v => some v
      | none =>
        if l.contains '/' && 8 ≤ l.length then strpDateYMDS l else none

/-- Core of parse_date on character lists: empty input stays empty, the
first passing format wins and is re-rendered canonically, and input that no
format accepts is returned verbatim. -/
def parseDateL (l : List Char) : List Char :=
  if l.isEmpty then []
  else
    match dateAttempt l with
    | some (y, m, d) => renderDate y m d
    | none => l

/-- Model of DataProcessor.parse_date. -/
def parse_date (s : String) : String := String.mk (parseDateL s.data)

/-! ### Model of _parse_datetime -/

/-- Parsed timestamp; hours, minutes and seconds default to zero when only
a date was recognized. -/
structure DT where
  y : Nat
  m : Nat
  d : Nat
  hh : Nat
  mi : Nat
  ss : Nat
deriving DecidableEq, Repr

/-- Comparison of two timestamps, the lexicographic order the datetime
class implements. -/
def dtLe (a b : DT) : Bool :=
  if a.y ≠ b.y then decide (a.y < b.y)
  else if a.m ≠ b.m then decide (a.m < b.m)
  else if a.d ≠ b.d then decide (a.d < b.d)
  else if a.hh ≠ b.hh then decide (a.hh < b.hh)
  else if a.mi ≠ b.mi then decide (a.mi < b.mi)
  else decide (a.ss ≤ b.ss)

/-- ACTIVE_START_DATE = datetime(2022, 1, 1). -/
def ACTIVE_START : DT := ⟨2022, 1, 1, 0, 0, 0⟩

/-- Python split on the first dot, as datetime_str.split(".")[0] keeps the
part before any fractional-seconds suffix. -/
def beforeDot (l : List Char) : List Char := l.takeWhile (fun c => c ≠ '.')

/-- Whitespace class of the regex that a literal space in a strptime format
is compiled to (one or more whitespace characters). -/
def wsRun : List Char → Option (List Char)
  | c :: rest => if isPyWs c then some (rest.dropWhile isPyWs) else none
  | [] => none

/-- Time-of-day part H:M with optional :S, with the regex alternatives and
backtracking; returns the remaining input for the caller to check. -/
def pTime (withSec : Bool) (l : List Char) : Option (Nat × Nat × Nat) :=
  let secPart : Nat → Nat → List Char → Option (Nat × Nat × Nat) :=
    fun hh mi r =>
      if withSec then
        match r with
        | ':' :: r2 =>
          (match pS2 r2 with
           | some (ss, []) => some (hh, mi, ss)
           | _ =>
             match pN1 r2 with
             | some (ss, []) => some (hh, mi, ss)
             | _ => none)
        | _ => none
      else
        match r with
        | [] => some (hh, mi, 0)
        | _ => none
  let minPart : Nat → List Char → Option (Nat × Nat × Nat) := fun hh r =>
    let via2 : Option (Nat × Nat × Nat) :=
      match pS2 r with
      | some (mi, r2) => secPart hh mi r2
      | none => none
    match via2 with
    | some v => some v
    | none =>
      match pN1 r with
      | some (mi, r2) => secPart hh mi r2
      | none => none
  let via2 : Option (Nat × Nat × Nat) :=
    match pH2 l with
    | some (hh, ':' :: r) => minPart hh r
    | _ => none
  match via2 with
  | some v => some v
  | none =>
    match pN1 l with
    | some (hh, ':' :: r) => minPart hh r
    | _ => none

/-- One datetime format: Y-m-d, then either the literal T (matched
case-insensitively, as _strptime compiles its regexes with IGNORECASE) or a
nonempty whitespace run, then the time of day.  The withSec flag selects
between H:M:S and H:M. -/
def pDT (sepT : Bool) (withSec : Bool) (l : List Char) : Option DT :=
  let sep : List Char → Option (List Char) := fun r =>
    if sepT then
      match r with
      | c :: rest => if c = 'T' || c = 't' then some rest else none
      | [] => none
    else wsRun r
  let timePart : Nat → Nat → Nat → List Char → Option DT := fun y m d r =>
    match sep r with
    | some r2 =>
      match pTime withSec r2 with
      | some (hh, mi, ss) =>
        if validYMD y m d then some ⟨y, m, d, hh, mi, ss⟩ else none
      | none => none
    | none => none
  match pY4 l with
  | some (y, '-' :: r1) =>
    let dayPart : Nat → List Char → Option DT := fun m r2 =>
      let via2 : Option DT :=
        match pD2 r2 with
        | some (d, r3) => timePart y m d r3
        | none => none
      match via2 with
      | some v => some v
      | none =>
        match pD1 r2 with
        | some (d, r3) => timePart y m d r3
        | none => none
    let viaM2 : Option DT :=
      match pM2 r1 with
      | some (m, '-' :: r2) => dayPart m r2
      | _ => none
    match viaM2 with
    | some v => some v
    | none =>
      match pM1 r1 with
      | some (m, '-' :: r2) => dayPart m r2
      | _ => none
  | _ => none

/-- Core of _parse_datetime: empty input is None; when the string contains
a capital T or a space, the three time-bearing formats are tried on the
part before any dot; otherwise, and when all three fail, the date normalizer
runs on the whole string and its result is parsed as Y-m-d at midnight,
with any failure caught and turned into None. -/
def parseDTL (l : List Char) : Option DT :=
  if l.isEmpty then none
  else
    let attempt : Option DT :=
      if l.contains 'T' || l.contains ' ' then
        let pre := beforeDot l
        match pDT true true pre with
        | some v => some v
        | none =>
          match pDT false true pre with
          | some v => some v
          | none => pDT false false pre
      else none
    match attempt with
    | some v => some v
    | none =>
      match strpDateISO (parseDateL l) with
      | some (y, m, d) => some ⟨y, m, d, 0, 0, 0⟩
      | none => none

/-- Model of DataProcessor._parse_datetime. -/
def parse_datetime (s : String) : Option DT := parseDTL s.data

/-! ### Data model: input rows and the eleven record types -/

/-- One denormalized input row, a mapping from the field names the program
reads to string values.  The reader delivers every field as a string, with
absent optional fields read as the empty string. -/
structure Row where
  patient_id : String := ""
  visit_id : String := ""
  visit_datetime : String := ""
  visit_type : String := ""
  patient_first_name : String := ""
  patient_last_name : String := ""
  patient_date_of_birth : String := ""
  patient_gender : String := ""
  patient_address_line1 : String := ""
  patient_address_line2 : String := ""
  patient_city : String := ""
  patient_state : String := ""
  patient_zip : String := ""
  patient_phone : String := ""
  patient_email : String := ""
  insurance_id : String := ""
  insurance_payer_name : String := ""
  insurance_policy_number : String := ""
  insurance_group_number : String := ""
  insurance_plan_type : String := ""
  billing_id : String := ""
  billing_amount_paid : String := ""
  billing_total_charge : String := ""
  billing_date : String := ""
  billing_payment_status : String := ""
  doctor_name : String := ""
  doctor_title : String := ""
  doctor_department : String := ""
  clinic_name : String := ""
  room_number : String := ""
  primary_diagnosis_code : String := ""
  primary_diagnosis_desc : String := ""
  secondary_diagnosis_code : String := ""
  secondary_diagnosis_desc : String := ""
  treatment_code : String := ""
  treatment_desc : String := ""
  prescription_id : String := ""
  prescription_drug_name : String := ""
  prescription_dosage : String := ""
  prescription_frequency : String := ""
  prescription_duration_days : String := ""
  lab_order_id : String := ""
  lab_test_code : String := ""
  lab_name : String := ""
  lab_result_value : String := ""
  lab_result_units : String := ""
  lab_result_date : String := ""
deriving DecidableEq, Repr

/-- DimPatient record. -/
structure Patient where
  patient_id : String
  patient_first_name : String
  patient_last_name : String
  patient_date_of_birth : String
  patient_gender : String
  patient_address_line1 : String
  patient_address_line2 : String
  patient_city : String
  patient_state : String
  patient_zip : String
  patient_phone : String
  patient_email : String
  patient_status : String
deriving DecidableEq, Repr

/-- DimInsurance record. -/
structure Insurance where
  insurance_id : String
  patient_id : String
  insurance_payer_name : String
  insurance_policy_number : String
  insurance_group_number : String
  insurance_plan_type : String
deriving DecidableEq, Repr

/-- DimBilling record. -/
structure Billing where
  billing_id : String
  insurance_id : String
  billing_amount_paid : PyF
  billing_total_charge : PyF
  billing_date : String
  billing_payment_status : String
deriving DecidableEq, Repr

/-- DimProvider record. -/
structure Provider where
  provider_id : Nat
  doctor_name : String
  doctor_title : String
  doctor_department : String
deriving DecidableEq, Repr

/-- DimLocation record. -/
structure Location where
  location_id : Nat
  clinic_name : String
  room_number : String
deriving DecidableEq, Repr

/-- DimPrimaryDiagnosis record. -/
structure PrimaryDiagnosis where
  primary_diagnosis_id : Nat
  primary_diagnosis_code : String
  primary_diagnosis_desc : String
deriving DecidableEq, Repr

/-- DimSecondaryDiagnosis record. -/
structure SecondaryDiagnosis where
  secondary_diagnosis_id : Nat
  secondary_diagnosis_code : String
  secondary_diagnosis_desc : String
deriving DecidableEq, Repr

/-- DimTreatment record. -/
structure Treatment where
  treatment_id : Nat
  treatment_code : String
  treatment_desc : String
deriving DecidableEq, Repr

/-- DimPrescription record. -/
structure Prescription where
  prescription_id : String
  prescription_drug_name : String
  prescription_dosage : String
  prescription_frequency : String
  prescription_duration_days : Int
deriving DecidableEq, Repr

/-- DimLabOrder record. -/
structure LabOrder where
  lab_order_id : String
  lab_test_code : String
  lab_name : String
  lab_result_value : String
  lab_result_units : String
  lab_result_date : String
deriving DecidableEq, Repr

/-- FactVisit record: the visit key, the nine dimension references plus the
owning patient, and the raw visit timestamp text and visit type. -/
structure FactVisit where
  visit_id : String
  patient_id : String
  insurance_id : String
  billing_id : String
  provider_id : Nat
  location_id : Nat
  primary_diagnosis_id : String
  secondary_diagnosis_id : String
  treatment_id : String
  prescription_id : String
  lab_order_id : String
  visit_datetime : String
  visit_type : String
deriving DecidableEq, Repr

/-- The whole mutable state of a DataProcessor: the ten registries, the
fact list, the five composite-key lookup tables, the seen-visit-id set and
the per-patient visit-date history. -/
structure St where
  patients : List (String × Patient)
  insurances : List (String × Insurance)
  billings : List (String × Billing)
  providers : List (Nat × Provider)
  locations : List (Nat × Location)
  primary_diagnoses : List (Nat × PrimaryDiagnosis)
  secondary_diagnoses : List (Nat × SecondaryDiagnosis)
  treatments : List (Nat × Treatment)
  prescriptions : List (String × Prescription)
  lab_orders : List (String × LabOrder)
  visits : List FactVisit
  provider_lookup : List (String × Nat)
  location_lookup : List (String × Nat)
  primary_diagnosis_lookup : List (String × Nat)
  secondary_diagnosis_lookup : List (String × Nat)
  treatment_lookup : List (String × Nat)
  processed_visit_ids : List String
  patient_visit_dates : List (String × List DT)
deriving DecidableEq, Repr

/-- Fresh DataProcessor state. -/
def initState : St :=
  ⟨[], [], [], [], [], [], [], [], [], [], [], [], [], [], [], [], [], []⟩

/-! ### The per-dimension upserts (_process_* methods) -/

/-- Model of _process_patient: unconditional insert of a fully populated
record with the placeholder Active status; the caller guards newness. -/
def processPatient (st : St) (row : Row) : St :=
  { st with patients := st.patients ++
      [(row.patient_id,
        { patient_id := row.patient_id
          patient_first_name := row.patient_first_name
          patient_last_name := row.patient_last_name
          patient_date_of_birth := parse_date row.patient_date_of_birth
          patient_gender := row.patient_gender
          patient_address_line1 := row.patient_address_line1
          patient_address_line2 := row.patient_address_line2
          patient_city := row.patient_city
          patient_state := row.patient_state
          patient_zip := row.patient_zip
          patient_phone := row.patient_phone
          patient_email := row.patient_email
          patient_status := "Active" })] }

/-- Model of _process_insurance: insert when the id is nonempty and new,
always return the id of the row. -/
def processInsurance (st : St) (row : Row) : St × String :=
  let iid := row.insurance_id
  if iid ≠ "" && !hasKey iid st.insurances then
    ({ st with insurances := st.insurances ++
        [(iid,
          { insurance_id := iid
            patient_id := row.patient_id
            insurance_payer_name := row.insurance_payer_name
            insurance_policy_number := row.insurance_policy_number
            insurance_group_number := row.insurance_group_number
            insurance_plan_type := row.insurance_plan_type })] }, iid)
  else (st, iid)

/-- Model of _process_billing: insert when the id is nonempty and new, with
monetary fields safely coerced, always return the id of the row. -/
def processBilling (st : St) (row : Row) (insurance_id : String) :
    St × String :=
  let bid := row.billing_id
  if bid ≠ "" && !hasKey bid st.billings then
    ({ st with billings := st.billings ++
        [(bid,
          { billing_id := bid
            insurance_id := insurance_id
            billing_amount_paid := safe_float row.billing_amount_paid
            billing_total_charge := safe_float row.billing_total_charge
            billing_date := parse_date row.billing_date
            billing_payment_status := row.billing_payment_status })] },
     bid)
  else (st, bid)

/-- Presence test of _process_provider: all three fields required. -/
def providerPresent (row : Row) : Bool :=
  row.doctor_name ≠ "" && row.doctor_title ≠ "" && row.doctor_department ≠ ""

/-- Composite key of _process_provider, joined with a pipe character. -/
def providerKey (row : Row) : String :=
  row.doctor_name ++ "|" ++ row.doctor_title ++ "|" ++ row.doctor_department

/-- Presence test of _process_location: both fields required. -/
def locationPresent (row : Row) : Bool :=
  row.clinic_name ≠ "" && row.room_number ≠ ""

/-- Composite key of _process_location. -/
def locationKey (row : Row) : String :=
  row.clinic_name ++ "|" ++ row.room_number

/-- Presence test of _process_primary_diagnosis: either field suffices. -/
def pdxPresent (row : Row) : Bool :=
  row.primary_diagnosis_code ≠ "" || row.primary_diagnosis_desc ≠ ""

/-- Composite key of _process_primary_diagnosis. -/
def pdxKey (row : Row) : String :=
  row.primary_diagnosis_code ++ "|" ++ row.primary_diagnosis_desc

/-- Presence test of _process_secondary_diagnosis. -/
def sdxPresent (row : Row) : Bool :=
  row.secondary_diagnosis_code ≠ "" || row.secondary_diagnosis_desc ≠ ""

/-- Composite key of _process_secondary_diagnosis. -/
def sdxKey (row : Row) : String :=
  row.secondary_diagnosis_code ++ "|" ++ row.secondary_diagnosis_desc

/-- Presence test of _process_treatment. -/
def treatmentPresent (row : Row) : Bool :=
  row.treatment_code ≠ "" || row.treatment_desc ≠ ""

/-- Composite key of _process_treatment. -/
def treatmentKey (row : Row) : String :=
  row.treatment_code ++ "|" ++ row.treatment_desc

/-- Shared shape of the five composite-key upserts: look the key up, and
when new, assign the surrogate id one past the current store size and
append to the lookup table and to the store. -/
def upsertComposite {ρ : Type} (key : String) (lookup : List (String × Nat))
    (store : List (Nat × ρ)) (mk : Nat → ρ) :
    List (String × Nat) × List (Nat × ρ) × Nat :=
  match findA key lookup with
  | some i => (lookup, store, i)
  | none =>
    let i := store.length + 1
    (lookup ++ [(key, i)], store ++ [(i, mk i)], i)

/-- Model of _process_provider: all three fields required, else sentinel 0;
composite key joined with a pipe character. -/
def processProvider (st : St) (row : Row) : St × Nat :=
  if !providerPresent row then (st, 0)
  else
    let r := upsertComposite (providerKey row) st.provider_lookup st.providers
      (fun i =>
        { provider_id := i
          doctor_name := row.doctor_name
          doctor_title := row.doctor_title
          doctor_department := row.doctor_department })
    ({ st with provider_lookup := r.1, providers := r.2.1 }, r.2.2)

/-- Model of _process_location: both fields required, else sentinel 0. -/
def processLocation (st : St) (row : Row) : St × Nat :=
  if !locationPresent row then (st, 0)
  else
    let r := upsertComposite (locationKey row) st.location_lookup st.locations
      (fun i =>
        { location_id := i
          clinic_name := row.clinic_name
          room_number := row.room_number })
    ({ st with location_lookup := r.1, locations := r.2.1 }, r.2.2)

/-- Model of _process_primary_diagnosis: either field suffices, sentinel is
the empty string, and the returned reference is str of the integer id. -/
def processPrimaryDiagnosis (st : St) (row : Row) : St × String :=
  if !pdxPresent row then (st, "")
  else
    let r := upsertComposite (pdxKey row) st.primary_diagnosis_lookup
      st.primary_diagnoses
      (fun i =>
        { primary_diagnosis_id := i
          primary_diagnosis_code := row.primary_diagnosis_code
          primary_diagnosis_desc := row.primary_diagnosis_desc })
    ({ st with primary_diagnosis_lookup := r.1, primary_diagnoses := r.2.1 },
     toString r.2.2)

/-- Model of _process_secondary_diagnosis. -/
def processSecondaryDiagnosis (st : St) (row : Row) : St × String :=
  if !sdxPresent row then (st, "")
  else
    let r := upsertComposite (sdxKey row) st.secondary_diagnosis_lookup
      st.secondary_diagnoses
      (fun i =>
        { secondary_diagnosis_id := i
          secondary_diagnosis_code := row.secondary_diagnosis_code
          secondary_diagnosis_desc := row.secondary_diagnosis_desc })
    ({ st with secondary_diagnosis_lookup := r.1,
               secondary_diagnoses := r.2.1 }, toString r.2.2)

/-- Model of _process_treatment. -/
def processTreatment (st : St) (row : Row) : St × String :=
  if !treatmentPresent row then (st, "")
  else
    let r := upsertComposite (treatmentKey row) st.treatment_lookup
      st.treatments
      (fun i =>
        { treatment_id := i
          treatment_code := row.treatment_code
          treatment_desc := row.treatment_desc })
    ({ st with treatment_lookup := r.1, treatments := r.2.1 }, toString r.2.2)

/-- Model of _process_prescription.  An empty id yields the empty sentinel;
a known id returns unchanged; otherwise the duration is coerced first (the
step that can raise an uncaught OverflowError), and the record is stored
only when one of the three string attributes is nonempty or the coerced
duration is nonzero, else the sentinel is returned with no insertion. -/
def processPrescription (st : St) (row : Row) :
    Except PyErr (St × String) :=
  let pid := row.prescription_id
  if pid = "" then Except.ok (st, "")
  else if hasKey pid st.prescriptions then Except.ok (st, pid)
  else
    match durParse row.prescription_duration_days with
    | Except.error e => Except.error e
    | Except.ok dur =>
      if row.prescription_drug_name ≠ "" || row.prescription_dosage ≠ "" ||
         row.prescription_frequency ≠ "" || dur ≠ 0 then
        Except.ok
          ({ st with prescriptions := st.prescriptions ++
              [(pid,
                { prescription_id := pid
                  prescription_drug_name := row.prescription_drug_name
                  prescription_dosage := row.prescription_dosage
                  prescription_frequency := row.prescription_frequency
                  prescription_duration_days := dur })] }, pid)
      else Except.ok (st, "")

/-- Model of _process_lab_order: same materialization pattern over the five
string attributes, with the result date normalized on storage. -/
def processLabOrder (st : St) (row : Row) : St × String :=
  let lid := row.lab_order_id
  if lid = "" then (st, "")
  else if hasKey lid st.lab_orders then (st, lid)
  else
    if row.lab_test_code ≠ "" || row.lab_name ≠ "" ||
       row.lab_result_value ≠ "" || row.lab_result_units ≠ "" ||
       row.lab_result_date ≠ "" then
      ({ st with lab_orders := st.lab_orders ++
          [(lid,
            { lab_order_id := lid
              lab_test_code := row.lab_test_code
              lab_name := row.lab_name
              lab_result_value := row.lab_result_value
              lab_result_units := row.lab_result_units
              lab_result_date := parse_date row.lab_result_date })] }, lid)
    else (st, "")

/-- Append a parsed visit date to the history list of a patient, the model
of defaultdict(list) followed by append. -/
def appendDate (p : String) (d : DT) (vd : List (String × List DT)) :
    List (String × List DT) :=
  if hasKey p vd then updateA p (fun l => l ++ [d]) vd
  else vd ++ [(p, [d])]

/-! ### The row processor and the run -/

/-- First stage of _process_row on a fresh visit id: mark the id seen,
insert the patient if new, and append a parseable visit datetime to the
history of the patient. -/
def stepPre (st : St) (row : Row) : St :=
  let st1 : St :=
    { st with processed_visit_ids := row.visit_id :: st.processed_visit_ids }
  let st2 : St :=
    if hasKey row.patient_id st1.patients then st1 else processPatient st1 row
  match parse_datetime row.visit_datetime with
  | some d =>
    { st2 with patient_visit_dates :=
        appendDate row.patient_id d st2.patient_visit_dates }
  | none => st2

/-- Model of _process_row.  A seen visit id returns with no effect at all;
otherwise the id is marked seen, the patient is inserted if new, a parseable
visit datetime is appended to the history of the patient, the nine remaining
dimensions are upserted in order, and one fact row is appended.  The value
is an Except because the prescription step can raise. -/
def processRow (st : St) (row : Row) : Except PyErr St :=
  if st.processed_visit_ids.contains row.visit_id then Except.ok st
  else
    let st3 : St := stepPre st row
    let r4 := processInsurance st3 row
    let r5 := processBilling r4.1 row r4.2
    let r6 := processProvider r5.1 row
    let r7 := processLocation r6.1 row
    let r8 := processPrimaryDiagnosis r7.1 row
    let r9 := processSecondaryDiagnosis r8.1 row
    let r10 := processTreatment r9.1 row
    match processPrescription r10.1 row with
    | Except.error e => Except.error e
    | Except.ok r11 =>
      let r12 := processLabOrder r11.1 row
      Except.ok
        { r12.1 with visits := r12.1.visits ++
            [{ visit_id := row.visit_id
               patient_id := row.patient_id
               insurance_id := r4.2
               billing_id := r5.2
               provider_id := r6.2
               location_id := r7.2
               primary_diagnosis_id := r8.2
               secondary_diagnosis_id := r9.2
               treatment_id := r10.2
               prescription_id := r11.2
               lab_order_id := r12.2
               visit_datetime := row.visit_datetime
               visit_type := row.visit_type }] }

/-- Consume a list of rows in order from a given state. -/
def runFrom (st : St) : List Row → Except PyErr St
  | [] => Except.ok st
  | r :: rs =>
    match processRow st r with
    | Except.ok st2 => runFrom st2 rs
    | Except.error e => Except.error e

/-- Active test of one date list: any entry on or after the threshold. -/
def statusOf (ds : List DT) : String :=
  if ds.any (fun d => dtLe ACTIVE_START d) then "Active" else "Inactive"

/-- Model of _update_patient_statuses: first loop over the visit-date
history setting Active or Inactive for patients present in the registry,
then a loop over the registry forcing Inactive on every patient with no
history entry. -/
def updatePatientStatuses (st : St) : St :=
  let pats1 := st.patient_visit_dates.foldl
    (fun pats e => updateA e.1
      (fun r => { r with patient_status := statusOf e.2 }) pats)
    st.patients
  let pats2 := pats1.map (fun e =>
    if hasKey e.1 st.patient_visit_dates then e
    else (e.1, { e.2 with patient_status := "Inactive" }))
  { st with patients := pats2 }

/-- The whole pipeline on a row sequence: process every row in order, then
resolve the patient statuses, as process_data does after the batch loop. -/
def runAll (rows : List Row) : Except PyErr St :=
  match runFrom initState rows with
  | Except.ok st => Except.ok (updatePatientStatuses st)
  | Except.error e => Except.error e

/-- Model of process_batch: rows of one batch in order. -/
def processBatch (st : St) (batch : List Row) : Except PyErr St :=
  runFrom st batch

/-- Consume a list of batches in order. -/
def runBatchesFrom (st : St) : List (List Row) → Except PyErr St
  | [] => Except.ok st
  | b :: bs =>
    match processBatch st b with
    | Except.ok st2 => runBatchesFrom st2 bs
    | Except.error e => Except.error e

/-- Batched pipeline: the batches in order, then the status resolver. -/
def runAllBatches (batches : List (List Row)) : Except PyErr St :=
  match runBatchesFrom initState batches with
  | Except.ok st => Except.ok (updatePatientStatuses st)
  | Except.error e => Except.error e

/-- Grouping loop of process_data: accumulate rows and flush whenever the
accumulator reaches the batch size, flushing any remainder at the end. -/
def chunksGo (bs : Nat) (acc : List Row) : List Row → List (List Row)
  | [] => if acc.isEmpty then [] else [acc]
  | r :: rs =>
    let acc2 := acc ++ [r]
    if bs ≤ acc2.length then acc2 :: chunksGo bs [] rs
    else chunksGo bs acc2 rs

/-- Batches the grouping loop forms from a row list at a batch size. -/
def chunksOf (bs : Nat) (rows : List Row) : List (List Row) :=
  chunksGo bs [] rows

/-- Pipeline as process_data runs it with a batch-size parameter. -/
def runChunked (bs : Nat) (rows : List Row) : Except PyErr St :=
  runAllBatches (chunksOf bs rows)

/-- Rows that survive visit-id deduplication relative to a set of already
seen ids: the first occurrence of each visit id is kept. -/
def dedupRows (seen : List String) : List Row → List Row
  | [] => []
  | r :: rs =>
    if seen.contains r.visit_id then dedupRows seen rs
    else r :: dedupRows (r.visit_id :: seen) rs

/-- First occurrences of a string list relative to already seen entries. -/
def dedupStrs (seen : List String) : List String → List String
  | [] => []
  | s :: ss =>
    if seen.contains s then dedupStrs seen ss
    else s :: dedupStrs (s :: seen) ss

/-- A row is an activity witness for a patient: it belongs to the patient
and its visit datetime parses to a timestamp on or after the threshold. -/
def goodRow (p : String) (row : Row) : Bool :=
  row.patient_id = p &&
    (match parse_datetime row.visit_datetime with
     | some d => dtLe ACTIVE_START d
     | none => false)

/-- The history of a patient contains a timestamp on or after the
threshold. -/
def hasActive (p : String) (vd : List (String × List DT)) : Bool :=
  match findA p vd with
  | some l => l.any (fun d => dtLe ACTIVE_START d)
  | none => false

/-- Extract the final state of a successful run, with the fresh state as a
default for the error case; used to state closed concrete facts. -/
def okState (e : Except PyErr St) : St :=
  match e with
  | Except.ok st => st
  | Except.error _ => initState

/-! ### Concrete rows used by counterexamples and witnesses -/

/-- A representative fully populated row. -/
def wRow : Row :=
  { patient_id := "P1", visit_id := "V1", visit_datetime := "2022-05-01",
    visit_type := "checkup", patient_first_name := "Ann",
    patient_date_of_birth := "03/15/1980", insurance_id := "I1",
    insurance_payer_name := "Payer", billing_id := "B1",
    billing_amount_paid := "12.5", billing_total_charge := "100",
    billing_date := "2022-05-02", billing_payment_status := "Paid",
    doctor_name := "Doc", doctor_title := "MD",
    doctor_department := "Cardio", clinic_name := "Main",
    room_number := "3", primary_diagnosis_code := "D1",
    secondary_diagnosis_desc := "SD", treatment_code := "T1",
    prescription_id := "RX1", prescription_drug_name := "DrugA",
    prescription_duration_days := "30", lab_order_id := "L1",
    lab_name := "Lab" }

/-- A second row sharing the insurance id of wRow, with an old visit. -/
def wRow2 : Row :=
  { patient_id := "P2", visit_id := "V2", visit_datetime := "2019-03-04",
    visit_type := "other", insurance_id := "I1",
    insurance_payer_name := "Other", billing_id := "B2" }

/-- A row repeating the visit id of wRow with different payload. -/
def wRowDup : Row :=
  { patient_id := "P9", visit_id := "V1", visit_datetime := "2023-01-01",
    visit_type := "dup", insurance_id := "I9" }

/-- Prescription RXA materialized with a drug name. -/
def rxRow1 : Row :=
  { patient_id := "P1", visit_id := "V1", prescription_id := "RXA",
    prescription_drug_name := "DrugA" }

/-- Row supplying prescription id RXA with every non-key attribute empty. -/
def rxRow2 : Row :=
  { patient_id := "P1", visit_id := "V2", prescription_id := "RXA" }

/-- Row supplying a fresh prescription id with the nonempty duration text 0
and no other attribute. -/
def rxRow3 : Row :=
  { patient_id := "P1", visit_id := "V3", prescription_id := "RXB",
    prescription_duration_days := "0" }

/-- Row whose prescription duration is the text inf. -/
def infRow : Row :=
  { patient_id := "P1", visit_id := "V1", prescription_id := "RXI",
    prescription_drug_name := "DrugA",
    prescription_duration_days := "inf" }

/-- First of two rows whose composite fields embed the pipe delimiter. -/
def pipeRowA : Row :=
  { patient_id := "P1", visit_id := "V1", doctor_name := "a|b",
    doctor_title := "c", doctor_department := "d", clinic_name := "x|y",
    room_number := "z", primary_diagnosis_code := "m|n",
    primary_diagnosis_desc := "o", secondary_diagnosis_code := "q|r",
    secondary_diagnosis_desc := "s", treatment_code := "u|v",
    treatment_desc := "w" }

/-- Second row: different field tuples, identical joined keys. -/
def pipeRowB : Row :=
  { patient_id := "P1", visit_id := "V2", doctor_name := "a",
    doctor_title := "b|c", doctor_department := "d", clinic_name := "x",
    room_number := "y|z", primary_diagnosis_code := "m",
    primary_diagnosis_desc := "n|o", secondary_diagnosis_code := "q",
    secondary_diagnosis_desc := "r|s", treatment_code := "u",
    treatment_desc := "v|w" }

/-! ### Invariant vocabulary used by the claim statements -/

/-- The list 1, 2, ..., n of surrogate ids of a registry of size n. -/
def seqTo : Nat → List Nat
  | 0 => []
  | n + 1 => seqTo n ++ [n + 1]

/-- Record preservation between two states: everything stored in any
registry or lookup table of the first state is still stored, unchanged,
in the second. -/
structure Mono (st st2 : St) : Prop where
  pat : ∀ k v, findA k st.patients = some v → findA k st2.patients = some v
  ins : ∀ k v, findA k st.insurances = some v → findA k st2.insurances = some v
  bil : ∀ k v, findA k st.billings = some v → findA k st2.billings = some v
  prov : ∀ k v, findA k st.providers = some v → findA k st2.providers = some v
  loc : ∀ k v, findA k st.locations = some v → findA k st2.locations = some v
  pdiag : ∀ k v, findA k st.primary_diagnoses = some v →
    findA k st2.primary_diagnoses = some v
  sdiag : ∀ k v, findA k st.secondary_diagnoses = some v →
    findA k st2.secondary_diagnoses = some v
  treat : ∀ k v, findA k st.treatments = some v →
    findA k st2.treatments = some v
  pres : ∀ k v, findA k st.prescriptions = some v →
    findA k st2.prescriptions = some v
  lab : ∀ k v, findA k st.lab_orders = some v → findA k st2.lab_orders = some v
  lkProv : ∀ k v, findA k st.provider_lookup = some v →
    findA k st2.provider_lookup = some v
  lkLoc : ∀ k v, findA k st.location_lookup = some v →
    findA k st2.location_lookup = some v
  lkPd : ∀ k v, findA k st.primary_diagnosis_lookup = some v →
    findA k st2.primary_diagnosis_lookup = some v
  lkSd : ∀ k v, findA k st.secondary_diagnosis_lookup = some v →
    findA k st2.secondary_diagnosis_lookup = some v
  lkTr : ∀ k v, findA k st.treatment_lookup = some v →
    findA k st2.treatment_lookup = some v

/-- Shape invariant of one composite-key registry: the lookup table maps
its keys, pairwise distinct, to the surrogate ids 1..n in first-seen order,
and the store is keyed by exactly those ids in the same order. -/
def CompInv {ρ : Type} (lookup : List (String × Nat))
    (store : List (Nat × ρ)) : Prop :=
  lookup.map Prod.snd = seqTo lookup.length ∧
  store.map Prod.fst = seqTo lookup.length ∧
  NodupKeys lookup

/-- The shape invariant of all five composite-key registries at once. -/
def AllComp (st : St) : Prop :=
  CompInv st.provider_lookup st.providers ∧
  CompInv st.location_lookup st.locations ∧
  CompInv st.primary_diagnosis_lookup st.primary_diagnoses ∧
  CompInv st.secondary_diagnosis_lookup st.secondary_diagnoses ∧
  CompInv st.treatment_lookup st.treatments

/-- Referential integrity of one fact row against a state: every reference
that is not the empty-string or zero sentinel resolves in the registry it
points to (the diagnosis and treatment references are the decimal renderings
of surrogate ids). -/
def FKok (st : St) (f : FactVisit) : Prop :=
  (f.patient_id ≠ "" → hasKey f.patient_id st.patients = true) ∧
  (f.insurance_id ≠ "" → hasKey f.insurance_id st.insurances = true) ∧
  (f.billing_id ≠ "" → hasKey f.billing_id st.billings = true) ∧
  (f.provider_id ≠ 0 → hasKey f.provider_id st.providers = true) ∧
  (f.location_id ≠ 0 → hasKey f.location_id st.locations = true) ∧
  (f.primary_diagnosis_id ≠ "" →
    ∃ n, f.primary_diagnosis_id = toString n ∧
      hasKey n st.primary_diagnoses = true) ∧
  (f.secondary_diagnosis_id ≠ "" →
    ∃ n, f.secondary_diagnosis_id = toString n ∧
      hasKey n st.secondary_diagnoses = true) ∧
  (f.treatment_id ≠ "" →
    ∃ n, f.treatment_id = toString n ∧ hasKey n st.treatments = true) ∧
  (f.prescription_id ≠ "" → hasKey f.prescription_id st.prescriptions = true) ∧
  (f.lab_order_id ≠ "" → hasKey f.lab_order_id st.lab_orders = true)

/-! ### Association list lemmas -/

theorem findA_append_left {α β : Type} [DecidableEq α] {k : α} {v : β}
    {l l2 : List (α × β)} (h : findA k l = some v) :
    findA k (l ++ l2) = some v := by
  induction l with
  | nil => simp [findA] at h
  | cons a t ih =>
    rw [List.cons_append]
    rcases a with ⟨x, y⟩
    by_cases hx : x = k
    · simp [findA, hx] at h ⊢
      exact h
    · simp [findA, hx] at h ⊢
      exact ih h

theorem findA_none {α β : Type} [DecidableEq α] {k : α}
    {l : List (α × β)} (h : hasKey k l = false) : findA k l = none := by
  unfold hasKey at h
  cases hf : findA k l with
  | none => rfl
  | some v => rw [hf] at h; simp at h

theorem findA_append_new {α β : Type} [DecidableEq α] {k : α} {v : β}
    {l : List (α × β)} (h : hasKey k l = false) :
    findA k (l ++ [(k, v)]) = some v := by
  have hn := findA_none h
  induction l with
  | nil => simp [findA]
  | cons a t ih =>
    rcases a with ⟨x, y⟩
    by_cases hx : x = k
    · simp [findA, hx] at hn
    · simp [findA, hx] at hn ⊢
      simp [hasKey, findA, hx] at h
      exact ih (by simp [hasKey, hn]) hn

theorem findA_append_other {α β : Type} [DecidableEq α] {k k2 : α} {v : β}
    {l : List (α × β)} (h : k2 ≠ k) :
    findA k (l ++ [(k2, v)]) = findA k l := by
  induction l with
  | nil => simp [findA, h]
  | cons a t ih =>
    rcases a with ⟨x, y⟩
    by_cases hx : x = k
    · simp [findA, hx]
    · simp [findA, hx]
      exact ih

theorem hasKey_append_left {α β : Type} [DecidableEq α] {k : α}
    {l l2 : List (α × β)} (h : hasKey k l = true) :
    hasKey k (l ++ l2) = true := by
  unfold hasKey at h ⊢
  cases hf : findA k l with
  | none => rw [hf] at h; simp at h
  | some v => rw [findA_append_left hf]; rfl

theorem hasKey_iff_mem {α β : Type} [DecidableEq α] {k : α}
    {l : List (α × β)} : hasKey k l = true ↔ k ∈ l.map Prod.fst := by
  induction l with
  | nil => simp [hasKey, findA]
  | cons a t ih =>
    rcases a with ⟨x, y⟩
    by_cases hx : x = k
    · simp [hasKey, findA, hx]
    · have h1 : hasKey k ((x, y) :: t) = hasKey k t := by
        simp [hasKey, findA, hx]
      rw [h1, ih]
      simp [Ne.symm hx]

theorem findA_some_val_mem {α β : Type} [DecidableEq α] {k : α} {v : β}
    {l : List (α × β)} (h : findA k l = some v) : v ∈ l.map Prod.snd := by
  induction l with
  | nil => simp [findA] at h
  | cons a t ih =>
    rcases a with ⟨x, y⟩
    by_cases hx : x = k
    · simp [findA, hx] at h
      simp [h]
    · simp [findA, hx] at h
      simp [ih h]

theorem findA_updateA {α β : Type} [DecidableEq α] {p q : α} {f : β → β}
    {l : List (α × β)} :
    findA q (updateA p f l) =
      if q = p then (findA q l).map f else findA q l := by
  induction l with
  | nil => by_cases h : q = p <;> simp [findA, updateA, h]
  | cons a t ih =>
    rcases a with ⟨x, y⟩
    by_cases hx : x = p <;> by_cases hq : q = p <;> by_cases hxq : x = q <;>
      simp_all [updateA, findA]

theorem updateA_keys {α β : Type} [DecidableEq α] {p : α} {f : β → β}
    {l : List (α × β)} : (updateA p f l).map Prod.fst = l.map Prod.fst := by
  induction l with
  | nil => rfl
  | cons a t ih =>
    rcases a with ⟨x, y⟩
    by_cases hx : x = p <;> simp [updateA, hx, ih]

theorem seqTo_length (n : Nat) : (seqTo n).length = n := by
  induction n with
  | zero => rfl
  | succ m ih => simp [seqTo, ih]

theorem mem_seqTo {k n : Nat} : k ∈ seqTo n ↔ 1 ≤ k ∧ k ≤ n := by
  induction n with
  | zero =>
    simp [seqTo]
    omega
  | succ m ih =>
    simp [seqTo, ih]
    omega

theorem hasKey_mono {α β : Type} [DecidableEq α] {l l2 : List (α × β)}
    (hm : ∀ k v, findA k l = some v → findA k l2 = some v) {k : α}
    (h : hasKey k l = true) : hasKey k l2 = true := by
  unfold hasKey at h ⊢
  cases hf : findA k l with
  | none => rw [hf] at h; simp at h
  | some v => rw [hm k v hf]; rfl

/-! ### Lemmas on the shared composite-key upsert -/

theorem uc_lookup_mono {ρ : Type} (key : String) (lookup : List (String × Nat))
    (store : List (Nat × ρ)) (mk : Nat → ρ) (k : String) (v : Nat)
    (h : findA k lookup = some v) :
    findA k (upsertComposite key lookup store mk).1 = some v := by
  unfold upsertComposite
  cases hf : findA key lookup with
  | some i => simpa using h
  | none =>
    simp only []
    exact findA_append_left h

theorem uc_store_mono {ρ : Type} (key : String) (lookup : List (String × Nat))
    (store : List (Nat × ρ)) (mk : Nat → ρ) (k : Nat) (v : ρ)
    (h : findA k store = some v) :
    findA k (upsertComposite key lookup store mk).2.1 = some v := by
  unfold upsertComposite
  cases hf : findA key lookup with
  | some i => simpa using h
  | none =>
    simp only []
    exact findA_append_left h

theorem uc_key {ρ : Type} (key : String) (lookup : List (String × Nat))
    (store : List (Nat × ρ)) (mk : Nat → ρ) :
    hasKey key (upsertComposite key lookup store mk).1 = true := by
  unfold upsertComposite
  cases hf : findA key lookup with
  | some i => simp [hasKey, hf]
  | none =>
    simp only [hasKey]
    rw [findA_append_new (by simp [hasKey, hf])]
    rfl

theorem uc_store_len {ρ : Type} {lookup : List (String × Nat)}
    {store : List (Nat × ρ)} (h : CompInv lookup store) :
    store.length = lookup.length := by
  have := congrArg List.length h.2.1
  simpa [seqTo_length] using this

theorem uc_inv {ρ : Type} (key : String) (lookup : List (String × Nat))
    (store : List (Nat × ρ)) (mk : Nat → ρ) (h : CompInv lookup store) :
    CompInv (upsertComposite key lookup store mk).1
      (upsertComposite key lookup store mk).2.1 := by
  have hlen := uc_store_len h
  unfold upsertComposite
  cases hf : findA key lookup with
  | some i => simpa using h
  | none =>
    simp only []
    obtain ⟨h1, h2, h3⟩ := h
    refine ⟨?_, ?_, ?_⟩
    · simp [seqTo, h1, hlen]
    · simp [seqTo, h2, hlen]
    · have hnk : key ∉ lookup.map Prod.fst := by
        intro hmem
        have := hasKey_iff_mem.mpr hmem
        simp [hasKey, hf] at this
      simp [NodupKeys, List.nodup_append]
      refine ⟨h3, ?_⟩
      intro a ha
      exact hnk (List.mem_map_of_mem Prod.fst ha)

theorem uc_ret_valid {ρ : Type} (key : String) (lookup : List (String × Nat))
    (store : List (Nat × ρ)) (mk : Nat → ρ) (h : CompInv lookup store) :
    hasKey (upsertComposite key lookup store mk).2.2
      (upsertComposite key lookup store mk).2.1 = true ∧
    1 ≤ (upsertComposite key lookup store mk).2.2 := by
  have hlen := uc_store_len h
  unfold upsertComposite
  cases hf : findA key lookup with
  | some i =>
    simp only []
    have hv : i ∈ lookup.map Prod.snd := findA_some_val_mem hf
    rw [h.1] at hv
    have hb := mem_seqTo.mp hv
    constructor
    · apply hasKey_iff_mem.mpr
      rw [h.2.1]
      exact mem_seqTo.mpr hb
    · exact hb.1
  | none =>
    simp only []
    constructor
    · apply hasKey_iff_mem.mpr
      simp
    · omega

theorem hasKey_append_self {α β : Type} [DecidableEq α] (k : α) (v : β)
    (l : List (α × β)) : hasKey k (l ++ [(k, v)]) = true := by
  cases hk : hasKey k l with
  | true => exact hasKey_append_left hk
  | false =>
    unfold hasKey
    rw [findA_append_new hk]
    rfl

/-! ### Frame and preservation lemmas for each upsert -/

theorem ins_frame (st : St) (row : Row) :
    (processInsurance st row).1 =
      { st with insurances := ((processInsurance st row).1).insurances } := by
  unfold processInsurance
  simp only []
  split <;> rfl

theorem ins_ret (st : St) (row : Row) :
    (processInsurance st row).2 = row.insurance_id := by
  unfold processInsurance
  simp only []
  split <;> rfl

theorem ins_mono (st : St) (row : Row) : ∀ k v,
    findA k st.insurances = some v →
    findA k ((processInsurance st row).1).insurances = some v := by
  unfold processInsurance
  simp only []
  split
  · intro k v h
    exact findA_append_left h
  · intro k v h
    exact h

theorem ins_key (st : St) (row : Row) (hne : row.insurance_id ≠ "") :
    hasKey row.insurance_id ((processInsurance st row).1).insurances = true := by
  unfold processInsurance
  simp only []
  split
  · exact hasKey_append_self _ _ _
  · rename_i hcond
    simp [hne] at hcond
    exact hcond

theorem ins_noop (st : St) (row : Row)
    (hk : hasKey row.insurance_id st.insurances = true) :
    processInsurance st row = (st, row.insurance_id) := by
  unfold processInsurance
  simp only []
  rw [if_neg]
  simp [hk]

theorem bil_frame (st : St) (row : Row) (iid : String) :
    (processBilling st row iid).1 =
      { st with billings := ((processBilling st row iid).1).billings } := by
  unfold processBilling
  simp only []
  split <;> rfl

theorem bil_ret (st : St) (row : Row) (iid : String) :
    (processBilling st row iid).2 = row.billing_id := by
  unfold processBilling
  simp only []
  split <;> rfl

theorem bil_mono (st : St) (row : Row) (iid : String) : ∀ k v,
    findA k st.billings = some v →
    findA k ((processBilling st row iid).1).billings = some v := by
  unfold processBilling
  simp only []
  split
  · intro k v h
    exact findA_append_left h
  · intro k v h
    exact h

theorem bil_key (st : St) (row : Row) (iid : String)
    (hne : row.billing_id ≠ "") :
    hasKey row.billing_id ((processBilling st row iid).1).billings = true := by
  unfold processBilling
  simp only []
  split
  · exact hasKey_append_self _ _ _
  · rename_i hcond
    simp [hne] at hcond
    exact hcond

theorem bil_noop (st : St) (row : Row) (iid : String)
    (hk : hasKey row.billing_id st.billings = true) :
    processBilling st row iid = (st, row.billing_id) := by
  unfold processBilling
  simp only []
  rw [if_neg]
  simp [hk]

theorem prov_frame (st : St) (row : Row) :
    (processProvider st row).1 =
      { st with
        provider_lookup := ((processProvider st row).1).provider_lookup,
        providers := ((processProvider st row).1).providers } := by
  unfold processProvider
  split <;> rfl

theorem prov_mono_lookup (st : St) (row : Row) : ∀ k v,
    findA k st.provider_lookup = some v →
    findA k ((processProvider st row).1).provider_lookup = some v := by
  unfold processProvider
  split
  · intro k v h
    exact h
  · intro k v h
    exact uc_lookup_mono _ _ _ _ k v h

theorem prov_mono_store (st : St) (row : Row) : ∀ k v,
    findA k st.providers = some v →
    findA k ((processProvider st row).1).providers = some v := by
  unfold processProvider
  split
  · intro k v h
    exact h
  · intro k v h
    exact uc_store_mono _ _ _ _ k v h

theorem prov_inv (st : St) (row : Row)
    (h : CompInv st.provider_lookup st.providers) :
    CompInv ((processProvider st row).1).provider_lookup
      ((processProvider st row).1).providers := by
  unfold processProvider
  split
  · exact h
  · exact uc_inv _ _ _ _ h

theorem prov_ret (st : St) (row : Row)
    (h : CompInv st.provider_lookup st.providers) :
    (processProvider st row).2 = 0 ∨
    hasKey (processProvider st row).2
      ((processProvider st row).1).providers = true := by
  unfold processProvider
  split
  · left
    rfl
  · right
    exact (uc_ret_valid _ _ _ _ h).1

theorem prov_key (st : St) (row : Row) (hp : providerPresent row = true) :
    hasKey (providerKey row)
      ((processProvider st row).1).provider_lookup = true := by
  unfold processProvider
  rw [if_neg (by simp [hp])]
  exact uc_key _ _ _ _

theorem loc_frame (st : St) (row : Row) :
    (processLocation st row).1 =
      { st with
        location_lookup := ((processLocation st row).1).location_lookup,
        locations := ((processLocation st row).1).locations } := by
  unfold processLocation
  split <;> rfl

theorem loc_mono_lookup (st : St) (row : Row) : ∀ k v,
    findA k st.location_lookup = some v →
    findA k ((processLocation st row).1).location_lookup = some v := by
  unfold processLocation
  split
  · intro k v h
    exact h
  · intro k v h
    exact uc_lookup_mono _ _ _ _ k v h

theorem loc_mono_store (st : St) (row : Row) : ∀ k v,
    findA k st.locations = some v →
    findA k ((processLocation st row).1).locations = some v := by
  unfold processLocation
  split
  · intro k v h
    exact h
  · intro k v h
    exact uc_store_mono _ _ _ _ k v h

theorem loc_inv (st : St) (row : Row)
    (h : CompInv st.location_lookup st.locations) :
    CompInv ((processLocation st row).1).location_lookup
      ((processLocation st row).1).locations := by
  unfold processLocation
  split
  · exact h
  · exact uc_inv _ _ _ _ h

theorem loc_ret (st : St) (row : Row)
    (h : CompInv st.location_lookup st.locations) :
    (processLocation st row).2 = 0 ∨
    hasKey (processLocation st row).2
      ((processLocation st row).1).locations = true := by
  unfold processLocation
  split
  · left
    rfl
  · right
    exact (uc_ret_valid _ _ _ _ h).1

theorem loc_key (st : St) (row : Row) (hp : locationPresent row = true) :
    hasKey (locationKey row)
      ((processLocation st row).1).location_lookup = true := by
  unfold processLocation
  rw [if_neg (by simp [hp])]
  exact uc_key _ _ _ _

theorem pdx_frame (st : St) (row : Row) :
    (processPrimaryDiagnosis st row).1 =
      { st with
        primary_diagnosis_lookup :=
          ((processPrimaryDiagnosis st row).1).primary_diagnosis_lookup,
        primary_diagnoses :=
          ((processPrimaryDiagnosis st row).1).primary_diagnoses } := by
  unfold processPrimaryDiagnosis
  split <;> rfl

theorem pdx_mono_lookup (st : St) (row : Row) : ∀ k v,
    findA k st.primary_diagnosis_lookup = some v →
    findA k ((processPrimaryDiagnosis st row).1).primary_diagnosis_lookup =
      some v := by
  unfold processPrimaryDiagnosis
  split
  · intro k v h
    exact h
  · intro k v h
    exact uc_lookup_mono _ _ _ _ k v h

theorem pdx_mono_store (st : St) (row : Row) : ∀ k v,
    findA k st.primary_diagnoses = some v →
    findA k ((processPrimaryDiagnosis st row).1).primary_diagnoses =
      some v := by
  unfold processPrimaryDiagnosis
  split
  · intro k v h
    exact h
  · intro k v h
    exact uc_store_mono _ _ _ _ k v h

theorem pdx_inv (st : St) (row : Row)
    (h : CompInv st.primary_diagnosis_lookup st.primary_diagnoses) :
    CompInv ((processPrimaryDiagnosis st row).1).primary_diagnosis_lookup
      ((processPrimaryDiagnosis st row).1).primary_diagnoses := by
  unfold processPrimaryDiagnosis
  split
  · exact h
  · exact uc_inv _ _ _ _ h

theorem pdx_ret (st : St) (row : Row)
    (h : CompInv st.primary_diagnosis_lookup st.primary_diagnoses) :
    (processPrimaryDiagnosis st row).2 = "" ∨
    (∃ n, (processPrimaryDiagnosis st row).2 = toString n ∧
      hasKey n ((processPrimaryDiagnosis st row).1).primary_diagnoses =
        true) := by
  unfold processPrimaryDiagnosis
  split
  · left
    rfl
  · right
    exact ⟨_, rfl, (uc_ret_valid _ _ _ _ h).1⟩

theorem pdx_key (st : St) (row : Row) (hp : pdxPresent row = true) :
    hasKey (pdxKey row)
      ((processPrimaryDiagnosis st row).1).primary_diagnosis_lookup = true := by
  unfold processPrimaryDiagnosis
  rw [if_neg (by simp [hp])]
  exact uc_key _ _ _ _

theorem sdx_frame (st : St) (row : Row) :
    (processSecondaryDiagnosis st row).1 =
      { st with
        secondary_diagnosis_lookup :=
          ((processSecondaryDiagnosis st row).1).secondary_diagnosis_lookup,
        secondary_diagnoses :=
          ((processSecondaryDiagnosis st row).1).secondary_diagnoses } := by
  unfold processSecondaryDiagnosis
  split <;> rfl

theorem sdx_mono_lookup (st : St) (row : Row) : ∀ k v,
    findA k st.secondary_diagnosis_lookup = some v →
    findA k ((processSecondaryDiagnosis st row).1).secondary_diagnosis_lookup =
      some v := by
  unfold processSecondaryDiagnosis
  split
  · intro k v h
    exact h
  · intro k v h
    exact uc_lookup_mono _ _ _ _ k v h

theorem sdx_mono_store (st : St) (row : Row) : ∀ k v,
    findA k st.secondary_diagnoses = some v →
    findA k ((processSecondaryDiagnosis st row).1).secondary_diagnoses =
      some v := by
  unfold processSecondaryDiagnosis
  split
  · intro k v h
    exact h
  · intro k v h
    exact uc_store_mono _ _ _ _ k v h

theorem sdx_inv (st : St) (row : Row)
    (h : CompInv st.secondary_diagnosis_lookup st.secondary_diagnoses) :
    CompInv ((processSecondaryDiagnosis st row).1).secondary_diagnosis_lookup
      ((processSecondaryDiagnosis st row).1).secondary_diagnoses := by
  unfold processSecondaryDiagnosis
  split
  · exact h
  · exact uc_inv _ _ _ _ h

theorem sdx_ret (st : St) (row : Row)
    (h : CompInv st.secondary_diagnosis_lookup st.secondary_diagnoses) :
    (processSecondaryDiagnosis st row).2 = "" ∨
    (∃ n, (processSecondaryDiagnosis st row).2 = toString n ∧
      hasKey n ((processSecondaryDiagnosis st row).1).secondary_diagnoses =
        true) := by
  unfold processSecondaryDiagnosis
  split
  · left
    rfl
  · right
    exact ⟨_, rfl, (uc_ret_valid _ _ _ _ h).1⟩

theorem sdx_key (st : St) (row : Row) (hp : sdxPresent row = true) :
    hasKey (sdxKey row)
      ((processSecondaryDiagnosis st row).1).secondary_diagnosis_lookup =
      true := by
  unfold processSecondaryDiagnosis
  rw [if_neg (by simp [hp])]
  exact uc_key _ _ _ _

theorem trt_frame (st : St) (row : Row) :
    (processTreatment st row).1 =
      { st with
        treatment_lookup := ((processTreatment st row).1).treatment_lookup,
        treatments := ((processTreatment st row).1).treatments } := by
  unfold processTreatment
  split <;> rfl

theorem trt_mono_lookup (st : St) (row : Row) : ∀ k v,
    findA k st.treatment_lookup = some v →
    findA k ((processTreatment st row).1).treatment_lookup = some v := by
  unfold processTreatment
  split
  · intro k v h
    exact h
  · intro k v h
    exact uc_lookup_mono _ _ _ _ k v h

theorem trt_mono_store (st : St) (row : Row) : ∀ k v,
    findA k st.treatments = some v →
    findA k ((processTreatment st row).1).treatments = some v := by
  unfold processTreatment
  split
  · intro k v h
    exact h
  · intro k v h
    exact uc_store_mono _ _ _ _ k v h

theorem trt_inv (st : St) (row : Row)
    (h : CompInv st.treatment_lookup st.treatments) :
    CompInv ((processTreatment st row).1).treatment_lookup
      ((processTreatment st row).1).treatments := by
  unfold processTreatment
  split
  · exact h
  · exact uc_inv _ _ _ _ h

theorem trt_ret (st : St) (row : Row)
    (h : CompInv st.treatment_lookup st.treatments) :
    (processTreatment st row).2 = "" ∨
    (∃ n, (processTreatment st row).2 = toString n ∧
      hasKey n ((processTreatment st row).1).treatments = true) := by
  unfold processTreatment
  split
  · left
    rfl
  · right
    exact ⟨_, rfl, (uc_ret_valid _ _ _ _ h).1⟩

theorem trt_key (st : St) (row : Row) (hp : treatmentPresent row = true) :
    hasKey (treatmentKey row)
      ((processTreatment st row).1).treatment_lookup = true := by
  unfold processTreatment
  rw [if_neg (by simp [hp])]
  exact uc_key _ _ _ _

theorem rx_frame (st : St) (row : Row) (p : St × String)
    (h : processPrescription st row = Except.ok p) :
    p.1 = { st with prescriptions := p.1.prescriptions } := by
  unfold processPrescription at h
  by_cases h1 : row.prescription_id = ""
  · rw [if_pos h1] at h
    injection h with h4
    subst h4
    rfl
  · rw [if_neg h1] at h
    by_cases h2 : hasKey row.prescription_id st.prescriptions = true
    · rw [if_pos h2] at h
      injection h with h4
      subst h4
      rfl
    · rw [if_neg h2] at h
      cases hd : durParse row.prescription_duration_days with
      | error e =>
        rw [hd] at h
        simp only [] at h
        exact Except.noConfusion h
      | ok dur =>
        rw [hd] at h
        simp only [] at h
        split at h
        · injection h with h4
          subst h4
          rfl
        · injection h with h4
          subst h4
          rfl

theorem rx_mono (st : St) (row : Row) (p : St × String)
    (h : processPrescription st row = Except.ok p) : ∀ k v,
    findA k st.prescriptions = some v →
    findA k p.1.prescriptions = some v := by
  unfold processPrescription at h
  by_cases h1 : row.prescription_id = ""
  · rw [if_pos h1] at h
    injection h with h4
    subst h4
    exact fun k v hv => hv
  · rw [if_neg h1] at h
    by_cases h2 : hasKey row.prescription_id st.prescriptions = true
    · rw [if_pos h2] at h
      injection h with h4
      subst h4
      exact fun k v hv => hv
    · rw [if_neg h2] at h
      cases hd : durParse row.prescription_duration_days with
      | error e =>
        rw [hd] at h
        simp only [] at h
        exact Except.noConfusion h
      | ok dur =>
        rw [hd] at h
        simp only [] at h
        split at h
        · injection h with h4
          subst h4
          exact fun k v hv => findA_append_left hv
        · injection h with h4
          subst h4
          exact fun k v hv => hv

theorem rx_key (st : St) (row : Row) (p : St × String)
    (h : processPrescription st row = Except.ok p) :
    p.2 = "" ∨ hasKey p.2 p.1.prescriptions = true := by
  unfold processPrescription at h
  by_cases h1 : row.prescription_id = ""
  · rw [if_pos h1] at h
    injection h with h4
    subst h4
    left
    rfl
  · rw [if_neg h1] at h
    by_cases h2 : hasKey row.prescription_id st.prescriptions = true
    · rw [if_pos h2] at h
      injection h with h4
      subst h4
      right
      exact h2
    · rw [if_neg h2] at h
      cases hd : durParse row.prescription_duration_days with
      | error e =>
        rw [hd] at h
        simp only [] at h
        exact Except.noConfusion h
      | ok dur =>
        rw [hd] at h
        simp only [] at h
        split at h
        · injection h with h4
          subst h4
          right
          exact hasKey_append_self _ _ _
        · injection h with h4
          subst h4
          left
          rfl

theorem rx_noop (st : St) (row : Row) (p : St × String)
    (hk : hasKey row.prescription_id st.prescriptions = true)
    (h : processPrescription st row = Except.ok p) :
    p = (st, row.prescription_id) := by
  unfold processPrescription at h
  by_cases h1 : row.prescription_id = ""
  · rw [if_pos h1] at h
    injection h with h4
    subst h4
    rw [h1]
  · rw [if_neg h1, if_pos hk] at h
    injection h with h4
    subst h4
    rfl

theorem lo_frame (st : St) (row : Row) :
    (processLabOrder st row).1 =
      { st with lab_orders := ((processLabOrder st row).1).lab_orders } := by
  unfold processLabOrder
  simp only []
  by_cases h1 : row.lab_order_id = ""
  · rw [if_pos h1]
  · rw [if_neg h1]
    by_cases h2 : hasKey row.lab_order_id st.lab_orders = true
    · rw [if_pos h2]
    · rw [if_neg h2]
      split <;> rfl

theorem lo_mono (st : St) (row : Row) : ∀ k v,
    findA k st.lab_orders = some v →
    findA k ((processLabOrder st row).1).lab_orders = some v := by
  unfold processLabOrder
  simp only []
  by_cases h1 : row.lab_order_id = ""
  · rw [if_pos h1]
    exact fun k v hv => hv
  · rw [if_neg h1]
    by_cases h2 : hasKey row.lab_order_id st.lab_orders = true
    · rw [if_pos h2]
      exact fun k v hv => hv
    · rw [if_neg h2]
      split
      · exact fun k v hv => findA_append_left hv
      · exact fun k v hv => hv

theorem lo_key (st : St) (row : Row) :
    (processLabOrder st row).2 = "" ∨
    hasKey (processLabOrder st row).2
      ((processLabOrder st row).1).lab_orders = true := by
  unfold processLabOrder
  simp only []
  by_cases h1 : row.lab_order_id = ""
  · rw [if_pos h1]
    left
    rfl
  · rw [if_neg h1]
    by_cases h2 : hasKey row.lab_order_id st.lab_orders = true
    · rw [if_pos h2]
      right
      exact h2
    · rw [if_neg h2]
      split
      · right
        exact hasKey_append_self _ _ _
      · left
        rfl

theorem lo_noop (st : St) (row : Row)
    (hk : hasKey row.lab_order_id st.lab_orders = true) :
    processLabOrder st row = (st, row.lab_order_id) := by
  unfold processLabOrder
  simp only []
  by_cases h1 : row.lab_order_id = ""
  · rw [if_pos h1, h1]
  · rw [if_neg h1, if_pos hk]

theorem pa_frame (st : St) (row : Row) :
    processPatient st row =
      { st with patients := (processPatient st row).patients } := rfl

theorem pa_mono (st : St) (row : Row) : ∀ k v,
    findA k st.patients = some v →
    findA k (processPatient st row).patients = some v :=
  fun _ _ h => findA_append_left h

theorem pa_key (st : St) (row : Row) :
    hasKey row.patient_id (processPatient st row).patients = true :=
  hasKey_append_self _ _ _

theorem ad_hasActive (p q : String) (d : DT) (vd : List (String × List DT)) :
    hasActive p (appendDate q d vd) =
      (hasActive p vd || (decide (p = q) && dtLe ACTIVE_START d)) := by
  unfold appendDate
  by_cases hq : hasKey q vd = true
  · rw [if_pos hq]
    unfold hasActive
    rw [findA_updateA]
    by_cases hpq : p = q
    · cases hf : findA p vd with
      | none =>
        rw [hpq] at hf
        unfold hasKey at hq
        rw [hf] at hq
        simp at hq
      | some l =>
        simp [hpq, hf]
    · simp [hpq]
  · rw [if_neg hq]
    unfold hasActive
    by_cases hpq : p = q
    · subst hpq
      have hn := findA_none (by simpa using hq)
      rw [findA_append_new (by simpa using hq), hn]
      simp
    · rw [findA_append_other (fun hc => hpq hc.symm)]
      simp [hpq]

theorem mono_refl (st : St) : Mono st st := by
  constructor <;> exact fun k v h => h

theorem mono_trans {a b c : St} (h1 : Mono a b) (h2 : Mono b c) : Mono a c :=
  ⟨fun k v h => h2.pat k v (h1.pat k v h),
   fun k v h => h2.ins k v (h1.ins k v h),
   fun k v h => h2.bil k v (h1.bil k v h),
   fun k v h => h2.prov k v (h1.prov k v h),
   fun k v h => h2.loc k v (h1.loc k v h),
   fun k v h => h2.pdiag k v (h1.pdiag k v h),
   fun k v h => h2.sdiag k v (h1.sdiag k v h),
   fun k v h => h2.treat k v (h1.treat k v h),
   fun k v h => h2.pres k v (h1.pres k v h),
   fun k v h => h2.lab k v (h1.lab k v h),
   fun k v h => h2.lkProv k v (h1.lkProv k v h),
   fun k v h => h2.lkLoc k v (h1.lkLoc k v h),
   fun k v h => h2.lkPd k v (h1.lkPd k v h),
   fun k v h => h2.lkSd k v (h1.lkSd k v h),
   fun k v h => h2.lkTr k v (h1.lkTr k v h)⟩

theorem mono_visits (st : St) (vs : List FactVisit) :
    Mono st { st with visits := vs } := by
  constructor <;> exact fun k v h => h

theorem ins_Mono (st : St) (row : Row) : Mono st (processInsurance st row).1 := by
  rw [ins_frame st row]
  constructor <;> first
    | exact fun k v h => h
    | exact fun k v h => ins_mono st row k v h

theorem bil_Mono (st : St) (row : Row) (iid : String) :
    Mono st (processBilling st row iid).1 := by
  rw [bil_frame st row iid]
  constructor <;> first
    | exact fun k v h => h
    | exact fun k v h => bil_mono st row iid k v h

theorem prov_Mono (st : St) (row : Row) : Mono st (processProvider st row).1 := by
  rw [prov_frame st row]
  constructor <;> first
    | exact fun k v h => h
    | exact fun k v h => prov_mono_lookup st row k v h
    | exact fun k v h => prov_mono_store st row k v h

theorem loc_Mono (st : St) (row : Row) : Mono st (processLocation st row).1 := by
  rw [loc_frame st row]
  constructor <;> first
    | exact fun k v h => h
    | exact fun k v h => loc_mono_lookup st row k v h
    | exact fun k v h => loc_mono_store st row k v h

theorem pdx_Mono (st : St) (row : Row) :
    Mono st (processPrimaryDiagnosis st row).1 := by
  rw [pdx_frame st row]
  constructor <;> first
    | exact fun k v h => h
    | exact fun k v h => pdx_mono_lookup st row k v h
    | exact fun k v h => pdx_mono_store st row k v h

theorem sdx_Mono (st : St) (row : Row) :
    Mono st (processSecondaryDiagnosis st row).1 := by
  rw [sdx_frame st row]
  constructor <;> first
    | exact fun k v h => h
    | exact fun k v h => sdx_mono_lookup st row k v h
    | exact fun k v h => sdx_mono_store st row k v h

theorem trt_Mono (st : St) (row : Row) :
    Mono st (processTreatment st row).1 := by
  rw [trt_frame st row]
  constructor <;> first
    | exact fun k v h => h
    | exact fun k v h => trt_mono_lookup st row k v h
    | exact fun k v h => trt_mono_store st row k v h

theorem rx_Mono (st : St) (row : Row) (p : St × String)
    (h : processPrescription st row = Except.ok p) : Mono st p.1 := by
  rw [rx_frame st row p h]
  constructor <;> first
    | exact fun k v hv => hv
    | exact fun k v hv => rx_mono st row p h k v hv

theorem lo_Mono (st : St) (row : Row) : Mono st (processLabOrder st row).1 := by
  rw [lo_frame st row]
  constructor <;> first
    | exact fun k v h => h
    | exact fun k v h => lo_mono st row k v h

/-! ### Untouched-field and invariant-transfer lemmas per upsert -/

theorem ins_untouched (st : St) (row : Row) :
    ((processInsurance st row).1).processed_visit_ids =
      st.processed_visit_ids ∧
    ((processInsurance st row).1).visits = st.visits ∧
    ((processInsurance st row).1).patient_visit_dates =
      st.patient_visit_dates := by
  rw [ins_frame st row]
  exact ⟨rfl, rfl, rfl⟩

theorem bil_untouched (st : St) (row : Row) (iid : String) :
    ((processBilling st row iid).1).processed_visit_ids =
      st.processed_visit_ids ∧
    ((processBilling st row iid).1).visits = st.visits ∧
    ((processBilling st row iid).1).patient_visit_dates =
      st.patient_visit_dates := by
  rw [bil_frame st row iid]
  exact ⟨rfl, rfl, rfl⟩

theorem prov_untouched (st : St) (row : Row) :
    ((processProvider st row).1).processed_visit_ids =
      st.processed_visit_ids ∧
    ((processProvider st row).1).visits = st.visits ∧
    ((processProvider st row).1).patient_visit_dates =
      st.patient_visit_dates := by
  rw [prov_frame st row]
  exact ⟨rfl, rfl, rfl⟩

theorem loc_untouched (st : St) (row : Row) :
    ((processLocation st row).1).processed_visit_ids =
      st.processed_visit_ids ∧
    ((processLocation st row).1).visits = st.visits ∧
    ((processLocation st row).1).patient_visit_dates =
      st.patient_visit_dates := by
  rw [loc_frame st row]
  exact ⟨rfl, rfl, rfl⟩

theorem pdx_untouched (st : St) (row : Row) :
    ((processPrimaryDiagnosis st row).1).processed_visit_ids =
      st.processed_visit_ids ∧
    ((processPrimaryDiagnosis st row).1).visits = st.visits ∧
    ((processPrimaryDiagnosis st row).1).patient_visit_dates =
      st.patient_visit_dates := by
  rw [pdx_frame st row]
  exact ⟨rfl, rfl, rfl⟩

theorem sdx_untouched (st : St) (row : Row) :
    ((processSecondaryDiagnosis st row).1).processed_visit_ids =
      st.processed_visit_ids ∧
    ((processSecondaryDiagnosis st row).1).visits = st.visits ∧
    ((processSecondaryDiagnosis st row).1).patient_visit_dates =
      st.patient_visit_dates := by
  rw [sdx_frame st row]
  exact ⟨rfl, rfl, rfl⟩

theorem trt_untouched (st : St) (row : Row) :
    ((processTreatment st row).1).processed_visit_ids =
      st.processed_visit_ids ∧
    ((processTreatment st row).1).visits = st.visits ∧
    ((processTreatment st row).1).patient_visit_dates =
      st.patient_visit_dates := by
  rw [trt_frame st row]
  exact ⟨rfl, rfl, rfl⟩

theorem rx_untouched (st : St) (row : Row) (p : St × String)
    (h : processPrescription st row = Except.ok p) :
    p.1.processed_visit_ids = st.processed_visit_ids ∧
    p.1.visits = st.visits ∧
    p.1.patient_visit_dates = st.patient_visit_dates := by
  rw [rx_frame st row p h]
  exact ⟨rfl, rfl, rfl⟩

theorem lo_untouched (st : St) (row : Row) :
    ((processLabOrder st row).1).processed_visit_ids =
      st.processed_visit_ids ∧
    ((processLabOrder st row).1).visits = st.visits ∧
    ((processLabOrder st row).1).patient_visit_dates =
      st.patient_visit_dates := by
  rw [lo_frame st row]
  exact ⟨rfl, rfl, rfl⟩

theorem ins_allcomp (st : St) (row : Row) (h : AllComp st) :
    AllComp (processInsurance st row).1 := by
  rw [ins_frame st row]
  exact h

theorem bil_allcomp (st : St) (row : Row) (iid : String) (h : AllComp st) :
    AllComp (processBilling st row iid).1 := by
  rw [bil_frame st row iid]
  exact h

theorem prov_allcomp (st : St) (row : Row) (h : AllComp st) :
    AllComp (processProvider st row).1 := by
  rw [prov_frame st row]
  exact ⟨prov_inv st row h.1, h.2.1, h.2.2.1, h.2.2.2.1, h.2.2.2.2⟩

theorem loc_allcomp (st : St) (row : Row) (h : AllComp st) :
    AllComp (processLocation st row).1 := by
  rw [loc_frame st row]
  exact ⟨h.1, loc_inv st row h.2.1, h.2.2.1, h.2.2.2.1, h.2.2.2.2⟩

theorem pdx_allcomp (st : St) (row : Row) (h : AllComp st) :
    AllComp (processPrimaryDiagnosis st row).1 := by
  rw [pdx_frame st row]
  exact ⟨h.1, h.2.1, pdx_inv st row h.2.2.1, h.2.2.2.1, h.2.2.2.2⟩

theorem sdx_allcomp (st : St) (row : Row) (h : AllComp st) :
    AllComp (processSecondaryDiagnosis st row).1 := by
  rw [sdx_frame st row]
  exact ⟨h.1, h.2.1, h.2.2.1, sdx_inv st row h.2.2.2.1, h.2.2.2.2⟩

theorem trt_allcomp (st : St) (row : Row) (h : AllComp st) :
    AllComp (processTreatment st row).1 := by
  rw [trt_frame st row]
  exact ⟨h.1, h.2.1, h.2.2.1, h.2.2.2.1, trt_inv st row h.2.2.2.2⟩

theorem rx_allcomp (st : St) (row : Row) (p : St × String)
    (h : processPrescription st row = Except.ok p) (ha : AllComp st) :
    AllComp p.1 := by
  rw [rx_frame st row p h]
  exact ha

theorem lo_allcomp (st : St) (row : Row) (h : AllComp st) :
    AllComp (processLabOrder st row).1 := by
  rw [lo_frame st row]
  exact h

theorem goodRow_of_none (p : String) (row : Row)
    (hdt : parse_datetime row.visit_datetime = none) : goodRow p row = false := by
  unfold goodRow
  rw [hdt]
  simp

theorem goodRow_of_some (p : String) (row : Row) (d : DT)
    (hdt : parse_datetime row.visit_datetime = some d) :
    goodRow p row = (decide (p = row.patient_id) && dtLe ACTIVE_START d) := by
  unfold goodRow
  rw [hdt]
  by_cases hpq : p = row.patient_id
  · simp [hpq]
  · have h2 : ¬(row.patient_id = p) := fun hc => hpq hc.symm
    simp [hpq, h2]

theorem ad_nodup (q : String) (d : DT) (vd : List (String × List DT))
    (h : NodupKeys vd) : NodupKeys (appendDate q d vd) := by
  unfold appendDate
  by_cases hq : hasKey q vd = true
  · rw [if_pos hq]
    unfold NodupKeys
    rw [updateA_keys]
    exact h
  · rw [if_neg hq]
    unfold NodupKeys
    simp [List.nodup_append]
    refine ⟨h, ?_⟩
    intro l hl
    exact hq (hasKey_iff_mem.mpr (List.mem_map_of_mem Prod.fst hl))

/-! ### Specification of the first stage of the row processor -/

theorem stepPre_spec (st : St) (row : Row) :
    (stepPre st row).processed_visit_ids =
      row.visit_id :: st.processed_visit_ids ∧
    (stepPre st row).visits = st.visits ∧
    Mono st (stepPre st row) ∧
    hasKey row.patient_id (stepPre st row).patients = true ∧
    (∀ p, hasActive p (stepPre st row).patient_visit_dates =
      (hasActive p st.patient_visit_dates || goodRow p row)) ∧
    (NodupKeys st.patient_visit_dates →
      NodupKeys (stepPre st row).patient_visit_dates) ∧
    (AllComp st → AllComp (stepPre st row)) := by
  unfold stepPre
  simp only []
  cases hdt : parse_datetime row.visit_datetime with
  | none =>
    by_cases hpk : hasKey row.patient_id st.patients = true
    · rw [if_pos hpk]
      refine ⟨by trivial, by trivial, ?_, hpk, ?_, fun hn => hn, fun ha => ha⟩
      · constructor <;> exact fun k v h => h
      · intro p
        rw [goodRow_of_none p row hdt]
        simp
    · rw [if_neg hpk]
      simp only [processPatient]
      refine ⟨by trivial, by trivial, ?_, hasKey_append_self _ _ _, ?_,
        fun hn => hn, fun ha => ha⟩
      · constructor <;> first
          | exact fun k v h => h
          | exact fun k v h => findA_append_left h
      · intro p
        rw [goodRow_of_none p row hdt]
        simp
  | some d =>
    by_cases hpk : hasKey row.patient_id st.patients = true
    · rw [if_pos hpk]
      refine ⟨by trivial, by trivial, ?_, hpk, ?_,
        fun hn => ad_nodup _ _ _ hn, fun ha => ha⟩
      · constructor <;> exact fun k v h => h
      · intro p
        rw [goodRow_of_some p row d hdt]
        exact ad_hasActive p row.patient_id d st.patient_visit_dates
    · rw [if_neg hpk]
      simp only [processPatient]
      refine ⟨by trivial, by trivial, ?_, hasKey_append_self _ _ _, ?_,
        fun hn => ad_nodup _ _ _ hn, fun ha => ha⟩
      · constructor <;> first
          | exact fun k v h => h
          | exact fun k v h => findA_append_left h
      · intro p
        rw [goodRow_of_some p row d hdt]
        exact ad_hasActive p row.patient_id d st.patient_visit_dates

/-! ### The row processor on a seen and on a fresh visit id -/

theorem processRow_dup (st : St) (row : Row)
    (hc : st.processed_visit_ids.contains row.visit_id = true) :
    processRow st row = Except.ok st := by
  unfold processRow
  rw [if_pos hc]

theorem processRow_ok_spec (st : St) (row : Row) (st2 : St)
    (hc : st.processed_visit_ids.contains row.visit_id = false)
    (h : processRow st row = Except.ok st2) :
    st2.processed_visit_ids = row.visit_id :: st.processed_visit_ids ∧
    Mono st st2 ∧
    (∃ f : FactVisit, st2.visits = st.visits ++ [f] ∧
      f.visit_id = row.visit_id ∧ f.patient_id = row.patient_id ∧
      (AllComp st → FKok st2 f)) ∧
    (∀ p, hasActive p st2.patient_visit_dates =
      (hasActive p st.patient_visit_dates || goodRow p row)) ∧
    (NodupKeys st.patient_visit_dates → NodupKeys st2.patient_visit_dates) ∧
    (AllComp st → AllComp st2) ∧
    (providerPresent row = true →
      hasKey (providerKey row) st2.provider_lookup = true) ∧
    (locationPresent row = true →
      hasKey (locationKey row) st2.location_lookup = true) ∧
    (pdxPresent row = true →
      hasKey (pdxKey row) st2.primary_diagnosis_lookup = true) ∧
    (sdxPresent row = true →
      hasKey (sdxKey row) st2.secondary_diagnosis_lookup = true) ∧
    (treatmentPresent row = true →
      hasKey (treatmentKey row) st2.treatment_lookup = true) := by
  unfold processRow at h
  rw [if_neg (by rw [hc]; simp)] at h
  simp only [] at h
  set s0 := stepPre st row with hs0
  set r4 := processInsurance s0 row with hr4
  set r5 := processBilling r4.1 row r4.2 with hr5
  set r6 := processProvider r5.1 row with hr6
  set r7 := processLocation r6.1 row with hr7
  set r8 := processPrimaryDiagnosis r7.1 row with hr8
  set r9 := processSecondaryDiagnosis r8.1 row with hr9
  set r10 := processTreatment r9.1 row with hr10
  cases hp : processPrescription r10.1 row with
  | error e =>
    rw [hp] at h
    simp only [] at h
    exact Except.noConfusion h
  | ok p11 =>
    rw [hp] at h
    simp only [] at h
    set r12 := processLabOrder p11.1 row with hr12
    injection h with h4
    subst h4
    set fct : FactVisit :=
      { visit_id := row.visit_id
        patient_id := row.patient_id
        insurance_id := r4.2
        billing_id := r5.2
        provider_id := r6.2
        location_id := r7.2
        primary_diagnosis_id := r8.2
        secondary_diagnosis_id := r9.2
        treatment_id := r10.2
        prescription_id := p11.2
        lab_order_id := r12.2
        visit_datetime := row.visit_datetime
        visit_type := row.visit_type } with hfct
    set stF : St := { r12.1 with visits := r12.1.visits ++ [fct] } with hstF
    obtain ⟨sp1, sp2, sp3, sp4, sp5, sp6, sp7⟩ := stepPre_spec st row
    have M12 : Mono r12.1 stF := mono_visits r12.1 (r12.1.visits ++ [fct])
    have M11 : Mono p11.1 stF := mono_trans (lo_Mono p11.1 row) M12
    have M10 : Mono r10.1 stF := mono_trans (rx_Mono r10.1 row p11 hp) M11
    have M9 : Mono r9.1 stF := mono_trans (trt_Mono r9.1 row) M10
    have M8 : Mono r8.1 stF := mono_trans (sdx_Mono r8.1 row) M9
    have M7 : Mono r7.1 stF := mono_trans (pdx_Mono r7.1 row) M8
    have M6 : Mono r6.1 stF := mono_trans (loc_Mono r6.1 row) M7
    have M5 : Mono r5.1 stF := mono_trans (prov_Mono r5.1 row) M6
    have M4 : Mono r4.1 stF := mono_trans (bil_Mono r4.1 row r4.2) M5
    have M0 : Mono s0 stF := mono_trans (ins_Mono s0 row) M4
    have MSt : Mono st stF := mono_trans sp3 M0
    have useen : stF.processed_visit_ids =
        row.visit_id :: st.processed_visit_ids := by
      have u12 : stF.processed_visit_ids = p11.1.processed_visit_ids :=
        (lo_untouched p11.1 row).1
      have u11 : p11.1.processed_visit_ids = r9.1.processed_visit_ids :=
        ((rx_untouched r10.1 row p11 hp).1).trans (trt_untouched r9.1 row).1
      have u9 : r9.1.processed_visit_ids = r7.1.processed_visit_ids :=
        ((sdx_untouched r8.1 row).1).trans (pdx_untouched r7.1 row).1
      have u7 : r7.1.processed_visit_ids = r5.1.processed_visit_ids :=
        ((loc_untouched r6.1 row).1).trans (prov_untouched r5.1 row).1
      have u5 : r5.1.processed_visit_ids = s0.processed_visit_ids :=
        ((bil_untouched r4.1 row r4.2).1).trans (ins_untouched s0 row).1
      exact ((((u12.trans u11).trans u9).trans u7).trans u5).trans sp1
    have uvis : stF.visits = st.visits ++ [fct] := by
      have u12 : stF.visits = p11.1.visits ++ [fct] := by
        have : r12.1.visits = p11.1.visits := (lo_untouched p11.1 row).2.1
        rw [hstF, this]
      have u11 : p11.1.visits = r9.1.visits :=
        ((rx_untouched r10.1 row p11 hp).2.1).trans (trt_untouched r9.1 row).2.1
      have u9 : r9.1.visits = r7.1.visits :=
        ((sdx_untouched r8.1 row).2.1).trans (pdx_untouched r7.1 row).2.1
      have u7 : r7.1.visits = r5.1.visits :=
        ((loc_untouched r6.1 row).2.1).trans (prov_untouched r5.1 row).2.1
      have u5 : r5.1.visits = s0.visits :=
        ((bil_untouched r4.1 row r4.2).2.1).trans (ins_untouched s0 row).2.1
      rw [u12, u11, u9, u7, u5, sp2]
    have uvd : stF.patient_visit_dates = s0.patient_visit_dates := by
      have u12 : stF.patient_visit_dates = p11.1.patient_visit_dates :=
        (lo_untouched p11.1 row).2.2
      have u11 : p11.1.patient_visit_dates = r9.1.patient_visit_dates :=
        ((rx_untouched r10.1 row p11 hp).2.2).trans (trt_untouched r9.1 row).2.2
      have u9 : r9.1.patient_visit_dates = r7.1.patient_visit_dates :=
        ((sdx_untouched r8.1 row).2.2).trans (pdx_untouched r7.1 row).2.2
      have u7 : r7.1.patient_visit_dates = r5.1.patient_visit_dates :=
        ((loc_untouched r6.1 row).2.2).trans (prov_untouched r5.1 row).2.2
      have u5 : r5.1.patient_visit_dates = s0.patient_visit_dates :=
        ((bil_untouched r4.1 row r4.2).2.2).trans (ins_untouched s0 row).2.2
      exact (((u12.trans u11).trans u9).trans u7).trans u5
    have aAll : AllComp st → AllComp stF := by
      intro ha
      have a4 : AllComp r4.1 := ins_allcomp s0 row (sp7 ha)
      have a5 : AllComp r5.1 := bil_allcomp r4.1 row r4.2 a4
      have a6 : AllComp r6.1 := prov_allcomp r5.1 row a5
      have a7 : AllComp r7.1 := loc_allcomp r6.1 row a6
      have a8 : AllComp r8.1 := pdx_allcomp r7.1 row a7
      have a9 : AllComp r9.1 := sdx_allcomp r8.1 row a8
      have a10 : AllComp r10.1 := trt_allcomp r9.1 row a9
      have a11 : AllComp p11.1 := rx_allcomp r10.1 row p11 hp a10
      exact lo_allcomp p11.1 row a11
    refine ⟨useen, MSt, ?_, ?_, ?_, aAll, ?_, ?_, ?_, ?_, ?_⟩
    · refine ⟨fct, uvis, rfl, rfl, ?_⟩
      intro ha
      have a4 : AllComp r4.1 := ins_allcomp s0 row (sp7 ha)
      have a5 : AllComp r5.1 := bil_allcomp r4.1 row r4.2 a4
      have a6 : AllComp r6.1 := prov_allcomp r5.1 row a5
      have a7 : AllComp r7.1 := loc_allcomp r6.1 row a6
      have a8 : AllComp r8.1 := pdx_allcomp r7.1 row a7
      have a9 : AllComp r9.1 := sdx_allcomp r8.1 row a8
      have a10 : AllComp r10.1 := trt_allcomp r9.1 row a9
      refine ⟨?_, ?_, ?_, ?_, ?_, ?_, ?_, ?_, ?_, ?_⟩
      · intro _
        exact hasKey_mono M0.pat sp4
      · intro hne
        have hr : fct.insurance_id = row.insurance_id := ins_ret s0 row
        rw [hr] at hne ⊢
        exact hasKey_mono M4.ins (ins_key s0 row hne)
      · intro hne
        have hr : fct.billing_id = row.billing_id := bil_ret r4.1 row r4.2
        rw [hr] at hne ⊢
        exact hasKey_mono M5.bil (bil_key r4.1 row r4.2 hne)
      · intro hne
        rcases prov_ret r5.1 row a5.1 with h0 | hk
        · exact absurd h0 hne
        · exact hasKey_mono M6.prov hk
      · intro hne
        rcases loc_ret r6.1 row a6.2.1 with h0 | hk
        · exact absurd h0 hne
        · exact hasKey_mono M7.loc hk
      · intro hne
        rcases pdx_ret r7.1 row a7.2.2.1 with h0 | ⟨n, hn, hk⟩
        · exact absurd h0 hne
        · exact ⟨n, hn, hasKey_mono M8.pdiag hk⟩
      · intro hne
        rcases sdx_ret r8.1 row a8.2.2.2.1 with h0 | ⟨n, hn, hk⟩
        · exact absurd h0 hne
        · exact ⟨n, hn, hasKey_mono M9.sdiag hk⟩
      · intro hne
        rcases trt_ret r9.1 row a9.2.2.2.2 with h0 | ⟨n, hn, hk⟩
        · exact absurd h0 hne
        · exact ⟨n, hn, hasKey_mono M10.treat hk⟩
      · intro hne
        rcases rx_key r10.1 row p11 hp with h0 | hk
        · exact absurd h0 hne
        · exact hasKey_mono M11.pres hk
      · intro hne
        rcases lo_key p11.1 row with h0 | hk
        · exact absurd h0 hne
        · exact hasKey_mono M12.lab hk
    · intro p
      rw [uvd]
      exact sp5 p
    · intro hn
      rw [uvd]
      exact sp6 hn
    · intro hpres
      exact hasKey_mono M6.lkProv (prov_key r5.1 row hpres)
    · intro hpres
      exact hasKey_mono M7.lkLoc (loc_key r6.1 row hpres)
    · intro hpres
      exact hasKey_mono M8.lkPd (pdx_key r7.1 row hpres)
    · intro hpres
      exact hasKey_mono M9.lkSd (sdx_key r8.1 row hpres)
    · intro hpres
      exact hasKey_mono M10.lkTr (trt_key r9.1 row hpres)

/-! ### Lemmas on whole runs -/

theorem runFrom_cons (st : St) (r : Row) (rs : List Row) :
    runFrom st (r :: rs) =
      match processRow st r with
      | Except.ok st2 => runFrom st2 rs
      | Except.error e => Except.error e := rfl

theorem FKok_mono {st st2 : St} {f : FactVisit} (m : Mono st st2)
    (h : FKok st f) : FKok st2 f := by
  obtain ⟨h1, h2, h3, h4, h5, h6, h7, h8, h9, h10⟩ := h
  refine ⟨fun hne => hasKey_mono m.pat (h1 hne),
    fun hne => hasKey_mono m.ins (h2 hne),
    fun hne => hasKey_mono m.bil (h3 hne),
    fun hne => hasKey_mono m.prov (h4 hne),
    fun hne => hasKey_mono m.loc (h5 hne), ?_, ?_, ?_,
    fun hne => hasKey_mono m.pres (h9 hne),
    fun hne => hasKey_mono m.lab (h10 hne)⟩
  · intro hne
    obtain ⟨n, he, hk⟩ := h6 hne
    exact ⟨n, he, hasKey_mono m.pdiag hk⟩
  · intro hne
    obtain ⟨n, he, hk⟩ := h7 hne
    exact ⟨n, he, hasKey_mono m.sdiag hk⟩
  · intro hne
    obtain ⟨n, he, hk⟩ := h8 hne
    exact ⟨n, he, hasKey_mono m.treat hk⟩

theorem procRow_dup_state (st : St) (r : Row) (stM : St)
    (hc : st.processed_visit_ids.contains r.visit_id = true)
    (hpr : processRow st r = Except.ok stM) : stM = st := by
  rw [processRow_dup st r hc] at hpr
  exact (Except.ok.inj hpr).symm

theorem runFrom_dedup (rows : List Row) : ∀ st : St,
    runFrom st rows = runFrom st (dedupRows st.processed_visit_ids rows) := by
  induction rows with
  | nil => intro st; rfl
  | cons r rs ih =>
    intro st
    cases hc : st.processed_visit_ids.contains r.visit_id with
    | true =>
      have hd : dedupRows st.processed_visit_ids (r :: rs) =
          dedupRows st.processed_visit_ids rs := by
        have hm := hc
        simp at hm
        simp [dedupRows, hm]
      rw [hd, runFrom_cons, processRow_dup st r hc]
      exact ih st
    | false =>
      have hd : dedupRows st.processed_visit_ids (r :: rs) =
          r :: dedupRows (r.visit_id :: st.processed_visit_ids) rs := by
        have hm := hc
        simp at hm
        simp [dedupRows, hm]
      rw [hd, runFrom_cons, runFrom_cons]
      cases hpr : processRow st r with
      | error e => rfl
      | ok st2 =>
        simp only []
        have hseen := (processRow_ok_spec st r st2 hc hpr).1
        rw [← hseen]
        exact ih st2

theorem runFrom_visit_ids (rows : List Row) : ∀ st st2 : St,
    runFrom st rows = Except.ok st2 →
    st2.visits.map FactVisit.visit_id =
      st.visits.map FactVisit.visit_id ++
        dedupStrs st.processed_visit_ids (rows.map Row.visit_id) := by
  induction rows with
  | nil =>
    intro st st2 h
    have he := Except.ok.inj h
    rw [← he]
    simp [dedupStrs]
  | cons r rs ih =>
    intro st st2 h
    rw [runFrom_cons] at h
    cases hpr : processRow st r with
    | error e =>
      rw [hpr] at h
      simp only [] at h
      exact Except.noConfusion h
    | ok stM =>
      rw [hpr] at h
      simp only [] at h
      cases hc : st.processed_visit_ids.contains r.visit_id with
      | true =>
        have hst := procRow_dup_state st r stM hc hpr
        subst hst
        rw [ih stM st2 h]
        congr 1
        have hm := hc
        simp at hm
        simp [dedupStrs, hm]
      | false =>
        obtain ⟨hseen, _, ⟨f, hvis, hfid, _, _⟩, _⟩ :=
          processRow_ok_spec st r stM hc hpr
        rw [ih stM st2 h, hvis, hseen]
        have hm := hc
        simp at hm
        simp [dedupStrs, hm, hfid, List.append_assoc]

theorem runFrom_mono (rows : List Row) : ∀ st st2 : St,
    runFrom st rows = Except.ok st2 → Mono st st2 := by
  induction rows with
  | nil =>
    intro st st2 h
    have he := Except.ok.inj h
    rw [← he]
    exact mono_refl st
  | cons r rs ih =>
    intro st st2 h
    rw [runFrom_cons] at h
    cases hpr : processRow st r with
    | error e =>
      rw [hpr] at h
      simp only [] at h
      exact Except.noConfusion h
    | ok stM =>
      rw [hpr] at h
      simp only [] at h
      cases hc : st.processed_visit_ids.contains r.visit_id with
      | true =>
        have hst := procRow_dup_state st r stM hc hpr
        subst hst
        exact ih stM st2 h
      | false =>
        exact mono_trans (processRow_ok_spec st r stM hc hpr).2.1
          (ih stM st2 h)

theorem runFrom_allcomp (rows : List Row) : ∀ st st2 : St,
    runFrom st rows = Except.ok st2 → AllComp st → AllComp st2 := by
  induction rows with
  | nil =>
    intro st st2 h ha
    have he := Except.ok.inj h
    rw [← he]
    exact ha
  | cons r rs ih =>
    intro st st2 h ha
    rw [runFrom_cons] at h
    cases hpr : processRow st r with
    | error e =>
      rw [hpr] at h
      simp only [] at h
      exact Except.noConfusion h
    | ok stM =>
      rw [hpr] at h
      simp only [] at h
      cases hc : st.processed_visit_ids.contains r.visit_id with
      | true =>
        have hst := procRow_dup_state st r stM hc hpr
        subst hst
        exact ih stM st2 h ha
      | false =>
        exact ih stM st2 h
          ((processRow_ok_spec st r stM hc hpr).2.2.2.2.2.1 ha)

theorem runFrom_fkok (rows : List Row) : ∀ st st2 : St,
    runFrom st rows = Except.ok st2 → AllComp st →
    (∀ f, f ∈ st.visits → FKok st f) →
    ∀ f, f ∈ st2.visits → FKok st2 f := by
  induction rows with
  | nil =>
    intro st st2 h _ hf
    have he := Except.ok.inj h
    rw [← he]
    exact hf
  | cons r rs ih =>
    intro st st2 h ha hf
    rw [runFrom_cons] at h
    cases hpr : processRow st r with
    | error e =>
      rw [hpr] at h
      simp only [] at h
      exact Except.noConfusion h
    | ok stM =>
      rw [hpr] at h
      simp only [] at h
      cases hc : st.processed_visit_ids.contains r.visit_id with
      | true =>
        have hst := procRow_dup_state st r stM hc hpr
        subst hst
        exact ih stM st2 h ha hf
      | false =>
        obtain ⟨_, hm, ⟨f0, hvis, _, _, hfk⟩, _, _, hac, _⟩ :=
          processRow_ok_spec st r stM hc hpr
        apply ih stM st2 h (hac ha)
        intro f hfmem
        rw [hvis] at hfmem
        rcases List.mem_append.mp hfmem with hin | hnew
        · exact FKok_mono hm (hf f hin)
        · have : f = f0 := by simpa using hnew
          rw [this]
          exact hfk ha

theorem runFrom_hasActive (rows : List Row) : ∀ st st2 : St,
    runFrom st rows = Except.ok st2 → ∀ p,
    hasActive p st2.patient_visit_dates =
      (hasActive p st.patient_visit_dates ||
        (dedupRows st.processed_visit_ids rows).any (goodRow p)) := by
  induction rows with
  | nil =>
    intro st st2 h p
    have he := Except.ok.inj h
    rw [← he]
    simp [dedupRows]
  | cons r rs ih =>
    intro st st2 h p
    rw [runFrom_cons] at h
    cases hpr : processRow st r with
    | error e =>
      rw [hpr] at h
      simp only [] at h
      exact Except.noConfusion h
    | ok stM =>
      rw [hpr] at h
      simp only [] at h
      cases hc : st.processed_visit_ids.contains r.visit_id with
      | true =>
        have hst := procRow_dup_state st r stM hc hpr
        subst hst
        have hd : dedupRows stM.processed_visit_ids (r :: rs) =
            dedupRows stM.processed_visit_ids rs := by
          have hm := hc
          simp at hm
          simp [dedupRows, hm]
        rw [hd]
        exact ih stM st2 h p
      | false =>
        obtain ⟨hseen, _, _, hha, _⟩ := processRow_ok_spec st r stM hc hpr
        have hd : dedupRows st.processed_visit_ids (r :: rs) =
            r :: dedupRows (r.visit_id :: st.processed_visit_ids) rs := by
          have hm := hc
          simp at hm
          simp [dedupRows, hm]
        rw [hd]
        rw [ih stM st2 h p, hha p, hseen]
        simp [Bool.or_assoc]

theorem runFrom_nodup (rows : List Row) : ∀ st st2 : St,
    runFrom st rows = Except.ok st2 → NodupKeys st.patient_visit_dates →
    NodupKeys st2.patient_visit_dates := by
  induction rows with
  | nil =>
    intro st st2 h hn
    have he := Except.ok.inj h
    rw [← he]
    exact hn
  | cons r rs ih =>
    intro st st2 h hn
    rw [runFrom_cons] at h
    cases hpr : processRow st r with
    | error e =>
      rw [hpr] at h
      simp only [] at h
      exact Except.noConfusion h
    | ok stM =>
      rw [hpr] at h
      simp only [] at h
      cases hc : st.processed_visit_ids.contains r.visit_id with
      | true =>
        have hst := procRow_dup_state st r stM hc hpr
        subst hst
        exact ih stM st2 h hn
      | false =>
        exact ih stM st2 h
          ((processRow_ok_spec st r stM hc hpr).2.2.2.2.1 hn)

theorem runFrom_compkeys (rows : List Row) : ∀ st st2 : St,
    runFrom st rows = Except.ok st2 →
    ∀ r, r ∈ dedupRows st.processed_visit_ids rows →
      (providerPresent r = true →
        hasKey (providerKey r) st2.provider_lookup = true) ∧
      (locationPresent r = true →
        hasKey (locationKey r) st2.location_lookup = true) ∧
      (pdxPresent r = true →
        hasKey (pdxKey r) st2.primary_diagnosis_lookup = true) ∧
      (sdxPresent r = true →
        hasKey (sdxKey r) st2.secondary_diagnosis_lookup = true) ∧
      (treatmentPresent r = true →
        hasKey (treatmentKey r) st2.treatment_lookup = true) := by
  induction rows with
  | nil =>
    intro st st2 h r hr
    simp [dedupRows] at hr
  | cons r rs ih =>
    intro st st2 h q hq
    rw [runFrom_cons] at h
    cases hpr : processRow st r with
    | error e =>
      rw [hpr] at h
      simp only [] at h
      exact Except.noConfusion h
    | ok stM =>
      rw [hpr] at h
      simp only [] at h
      cases hc : st.processed_visit_ids.contains r.visit_id with
      | true =>
        have hst := procRow_dup_state st r stM hc hpr
        subst hst
        have hd : dedupRows stM.processed_visit_ids (r :: rs) =
            dedupRows stM.processed_visit_ids rs := by
          have hm := hc
          simp at hm
          simp [dedupRows, hm]
        rw [hd] at hq
        exact ih stM st2 h q hq
      | false =>
        obtain ⟨hseen, _, _, _, _, _, k1, k2, k3, k4, k5⟩ :=
          processRow_ok_spec st r stM hc hpr
        have hmono := runFrom_mono rs stM st2 h
        have hd : dedupRows st.processed_visit_ids (r :: rs) =
            r :: dedupRows (r.visit_id :: st.processed_visit_ids) rs := by
          have hm := hc
          simp at hm
          simp [dedupRows, hm]
        rw [hd] at hq
        rcases List.mem_cons.mp hq with hqr | hqtail
        · subst hqr
          exact ⟨fun hp => hasKey_mono hmono.lkProv (k1 hp),
                 fun hp => hasKey_mono hmono.lkLoc (k2 hp),
                 fun hp => hasKey_mono hmono.lkPd (k3 hp),
                 fun hp => hasKey_mono hmono.lkSd (k4 hp),
                 fun hp => hasKey_mono hmono.lkTr (k5 hp)⟩
        · rw [← hseen] at hqtail
          exact ih stM st2 h q hqtail

/-! ### Lemmas on the status resolver -/

theorem resolver_untouched (st : St) :
    (updatePatientStatuses st).insurances = st.insurances ∧
    (updatePatientStatuses st).billings = st.billings ∧
    (updatePatientStatuses st).providers = st.providers ∧
    (updatePatientStatuses st).locations = st.locations ∧
    (updatePatientStatuses st).primary_diagnoses = st.primary_diagnoses ∧
    (updatePatientStatuses st).secondary_diagnoses = st.secondary_diagnoses ∧
    (updatePatientStatuses st).treatments = st.treatments ∧
    (updatePatientStatuses st).prescriptions = st.prescriptions ∧
    (updatePatientStatuses st).lab_orders = st.lab_orders ∧
    (updatePatientStatuses st).visits = st.visits ∧
    (updatePatientStatuses st).provider_lookup = st.provider_lookup ∧
    (updatePatientStatuses st).location_lookup = st.location_lookup ∧
    (updatePatientStatuses st).primary_diagnosis_lookup =
      st.primary_diagnosis_lookup ∧
    (updatePatientStatuses st).secondary_diagnosis_lookup =
      st.secondary_diagnosis_lookup ∧
    (updatePatientStatuses st).treatment_lookup = st.treatment_lookup ∧
    (updatePatientStatuses st).processed_visit_ids =
      st.processed_visit_ids ∧
    (updatePatientStatuses st).patient_visit_dates =
      st.patient_visit_dates := by
  unfold updatePatientStatuses
  exact ⟨rfl, rfl, rfl, rfl, rfl, rfl, rfl, rfl, rfl, rfl, rfl, rfl, rfl,
    rfl, rfl, rfl, rfl⟩

theorem findA_head_none {β : Type} {q : String} {ds : β}
    {t : List (String × β)} (hnd : NodupKeys ((q, ds) :: t)) :
    findA q t = none := by
  apply findA_none
  cases hk : hasKey q t with
  | false => rfl
  | true =>
    have hmem := hasKey_iff_mem.mp hk
    unfold NodupKeys at hnd
    simp at hnd
    simp at hmem
    obtain ⟨v, hv⟩ := hmem
    exact absurd hv (hnd.1 v)

theorem foldl_status_find (vd : List (String × List DT)) :
    ∀ (pats : List (String × Patient)) (p : String), NodupKeys vd →
    findA p (vd.foldl (fun pats e =>
      updateA e.1 (fun r => { r with patient_status := statusOf e.2 }) pats)
      pats) =
      (match findA p vd with
       | some ds =>
         (findA p pats).map (fun r => { r with patient_status := statusOf ds })
       | none => findA p pats) := by
  induction vd with
  | nil =>
    intro pats p _
    simp [findA]
  | cons e t ih =>
    intro pats p hnd
    rcases e with ⟨q, ds⟩
    have hnd2 : NodupKeys t := by
      unfold NodupKeys at hnd ⊢
      simp at hnd
      exact hnd.2
    have hqn : findA q t = none := findA_head_none hnd
    simp only [List.foldl_cons]
    rw [ih (updateA q
      (fun r => { r with patient_status := statusOf ds }) pats) p hnd2]
    by_cases hpq : p = q
    · subst hpq
      rw [hqn]
      simp only [findA, if_pos rfl]
      rw [findA_updateA]
      simp
    · have hqp : ¬(q = p) := fun hc => hpq hc.symm
      have h1 : findA p (updateA q
          (fun r => { r with patient_status := statusOf ds }) pats) =
          findA p pats := by
        rw [findA_updateA]
        simp [hpq]
      rw [h1]
      simp only [findA, if_neg hqp]

theorem map_guard_find (vd : List (String × List DT))
    (l : List (String × Patient)) (p : String) :
    findA p (l.map (fun e =>
      if hasKey e.1 vd then e
      else (e.1, { e.2 with patient_status := "Inactive" }))) =
      (findA p l).map (fun r =>
        if hasKey p vd then r
        else { r with patient_status := "Inactive" }) := by
  induction l with
  | nil => simp [findA]
  | cons e t ih =>
    rcases e with ⟨x, y⟩
    simp only [List.map_cons]
    by_cases hkx : hasKey x vd = true
    · rw [if_pos hkx]
      by_cases hx : x = p
      · subst hx
        simp [findA, hkx]
      · simp [findA, hx, ih]
    · rw [if_neg hkx]
      by_cases hx : x = p
      · subst hx
        simp [findA, hkx]
      · simp [findA, hx, ih]

theorem resolver_find (st : St) (hnd : NodupKeys st.patient_visit_dates)
    (p : String) :
    findA p (updatePatientStatuses st).patients =
      (findA p st.patients).map (fun r =>
        { r with patient_status :=
            if hasActive p st.patient_visit_dates then "Active"
            else "Inactive" }) := by
  unfold updatePatientStatuses
  simp only []
  rw [map_guard_find, foldl_status_find st.patient_visit_dates st.patients p
    hnd]
  cases hfv : findA p st.patient_visit_dates with
  | some ds =>
    have hk : hasKey p st.patient_visit_dates = true := by
      simp [hasKey, hfv]
    have hact : hasActive p st.patient_visit_dates =
        ds.any (fun d => dtLe ACTIVE_START d) := by
      simp [hasActive, hfv]
    cases findA p st.patients with
    | none => simp
    | some r =>
      simp [hk, hact, statusOf]
  | none =>
    have hk : hasKey p st.patient_visit_dates = false := by
      simp [hasKey, hfv]
    have hact : hasActive p st.patient_visit_dates = false := by
      simp [hasActive, hfv]
    cases findA p st.patients with
    | none => simp
    | some r =>
      simp [hk, hact]

theorem resolver_hasKey (st : St) (hnd : NodupKeys st.patient_visit_dates)
    (k : String) :
    hasKey k (updatePatientStatuses st).patients = hasKey k st.patients := by
  unfold hasKey
  rw [resolver_find st hnd k]
  cases findA k st.patients <;> rfl

theorem resolver_fkok (st : St) (hnd : NodupKeys st.patient_visit_dates)
    (f : FactVisit) (h : FKok st f) : FKok (updatePatientStatuses st) f := by
  obtain ⟨u1, u2, u3, u4, u5, u6, u7, u8, u9, _, u11, _, _, _, _, _, _⟩ :=
    resolver_untouched st
  obtain ⟨h1, h2, h3, h4, h5, h6, h7, h8, h9, h10⟩ := h
  refine ⟨?_, ?_, ?_, ?_, ?_, ?_, ?_, ?_, ?_, ?_⟩
  · intro hne
    rw [resolver_hasKey st hnd]
    exact h1 hne
  · intro hne
    unfold hasKey
    rw [u1]
    exact h2 hne
  · intro hne
    unfold hasKey
    rw [u2]
    exact h3 hne
  · intro hne
    unfold hasKey
    rw [u3]
    exact h4 hne
  · intro hne
    unfold hasKey
    rw [u4]
    exact h5 hne
  · intro hne
    obtain ⟨n, he, hk⟩ := h6 hne
    refine ⟨n, he, ?_⟩
    unfold hasKey
    rw [u5]
    exact hk
  · intro hne
    obtain ⟨n, he, hk⟩ := h7 hne
    refine ⟨n, he, ?_⟩
    unfold hasKey
    rw [u6]
    exact hk
  · intro hne
    obtain ⟨n, he, hk⟩ := h8 hne
    refine ⟨n, he, ?_⟩
    unfold hasKey
    rw [u7]
    exact hk
  · intro hne
    unfold hasKey
    rw [u8]
    exact h9 hne
  · intro hne
    unfold hasKey
    rw [u9]
    exact h10 hne

theorem runAll_inv (rows : List Row) (st : St)
    (h : runAll rows = Except.ok st) :
    ∃ stP, runFrom initState rows = Except.ok stP ∧
      st = updatePatientStatuses stP := by
  unfold runAll at h
  cases hr : runFrom initState rows with
  | ok stP =>
    rw [hr] at h
    simp only [] at h
    exact ⟨stP, rfl, (Except.ok.inj h).symm⟩
  | error e =>
    rw [hr] at h
    simp only [] at h
    exact Except.noConfusion h

theorem initState_allcomp : AllComp initState := by
  refine ⟨?_, ?_, ?_, ?_, ?_⟩ <;>
    exact ⟨rfl, rfl, by simp [NodupKeys, initState]⟩

theorem initState_nodup : NodupKeys initState.patient_visit_dates := by
  simp [NodupKeys, initState]

theorem initState_fkok : ∀ f, f ∈ initState.visits → FKok initState f := by
  intro f hf
  simp [initState] at hf

theorem processRow_mono (st : St) (row : Row) (st2 : St)
    (h : processRow st row = Except.ok st2) : Mono st st2 := by
  cases hc : st.processed_visit_ids.contains row.visit_id with
  | true =>
    have he := procRow_dup_state st row st2 hc h
    subst he
    exact mono_refl _
  | false => exact (processRow_ok_spec st row st2 hc h).2.1

theorem runFrom_append (l1 : List Row) : ∀ (l2 : List Row) (st : St),
    runFrom st (l1 ++ l2) =
      match runFrom st l1 with
      | Except.ok s => runFrom s l2
      | Except.error e => Except.error e := by
  induction l1 with
  | nil => intro l2 st; rfl
  | cons r rs ih =>
    intro l2 st
    rw [List.cons_append, runFrom_cons, runFrom_cons]
    cases processRow st r with
    | ok s =>
      simp only []
      exact ih l2 s
    | error e => rfl

theorem runBatchesFrom_join (batches : List (List Row)) : ∀ st : St,
    runBatchesFrom st batches = runFrom st batches.flatten := by
  induction batches with
  | nil => intro st; rfl
  | cons b bs ih =>
    intro st
    have hj : (b :: bs).flatten = b ++ bs.flatten := by simp
    rw [hj, runFrom_append]
    show (match runFrom st b with
          | Except.ok s => runBatchesFrom s bs
          | Except.error e => Except.error e) = _
    cases runFrom st b with
    | ok s =>
      simp only []
      exact ih s
    | error e => rfl

theorem chunksGo_join (bs : Nat) (rows : List Row) : ∀ acc : List Row,
    (chunksGo bs acc rows).flatten = acc ++ rows := by
  induction rows with
  | nil =>
    intro acc
    unfold chunksGo
    split
    · rename_i hemp
      simp at hemp
      simp [hemp]
    · simp
  | cons r rs ih =>
    intro acc
    unfold chunksGo
    simp only []
    split
    · simp [ih]
    · simp [ih]

/-! ### Claim theorems -/

/-! ### Facts about the date parsers used by the idempotence argument -/

theorem digit?_le {c : Char} {n : Nat} (h : digit? c = some n) : n ≤ 9 := by
  unfold digit? at h
  repeat' split at h
  all_goals first
    | (injection h with h; omega)
    | exact Option.noConfusion h

theorem digit?_digitChar {k : Nat} (hk : k ≤ 9) :
    digit? (digitChar k) = some k := by
  interval_cases k <;> rfl

theorem digit?_dash : digit? '-' = none := by rfl

theorem digitChar_ne_dash {k : Nat} (hk : k ≤ 9) : digitChar k ≠ '-' := by
  interval_cases k <;> decide

theorem digitChar_ne_slash {k : Nat} (hk : k ≤ 9) : digitChar k ≠ '/' := by
  interval_cases k <;> decide

theorem pY4_bound {l r : List Char} {y : Nat} (h : pY4 l = some (y, r)) :
    y ≤ 9999 := by
  rcases l with _ | ⟨a, _ | ⟨b, _ | ⟨c, _ | ⟨d, rest⟩⟩⟩⟩
  · exact Option.noConfusion h
  · exact Option.noConfusion h
  · exact Option.noConfusion h
  · exact Option.noConfusion h
  · unfold pY4 at h
    simp only [] at h
    cases ha : digit? a with
    | none => rw [ha] at h; exact Option.noConfusion h
    | some w =>
      cases hb : digit? b with
      | none => rw [ha, hb] at h; exact Option.noConfusion h
      | some x =>
        cases hc : digit? c with
        | none => rw [ha, hb, hc] at h; exact Option.noConfusion h
        | some z =>
          cases hd : digit? d with
          | none => rw [ha, hb, hc, hd] at h; exact Option.noConfusion h
          | some u =>
            rw [ha, hb, hc, hd] at h
            simp only [] at h
            injection h with h
            rw [Prod.mk.injEq] at h
            obtain ⟨h1, -⟩ := h
            have b1 := digit?_le ha
            have b2 := digit?_le hb
            have b3 := digit?_le hc
            have b4 := digit?_le hd
            omega

theorem pM2_bound {l r : List Char} {m : Nat} (h : pM2 l = some (m, r)) :
    1 ≤ m ∧ m ≤ 12 := by
  rcases l with _ | ⟨a, _ | ⟨b, t⟩⟩
  · exact Option.noConfusion h
  · exact Option.noConfusion h
  · unfold pM2 at h
    simp only [] at h
    cases ha : digit? a with
    | none => rw [ha] at h; exact Option.noConfusion h
    | some x =>
      cases hb : digit? b with
      | none => rw [ha, hb] at h; exact Option.noConfusion h
      | some z =>
        rw [ha, hb] at h
        simp only [] at h
        split at h
        · rename_i hcnd
          try simp at hcnd
          injection h with h
          rw [Prod.mk.injEq] at h
          obtain ⟨h1, -⟩ := h
          have b2 := digit?_le hb
          omega
        · exact Option.noConfusion h

theorem pM1_bound {l r : List Char} {m : Nat} (h : pM1 l = some (m, r)) :
    1 ≤ m ∧ m ≤ 9 := by
  rcases l with _ | ⟨a, t⟩
  · exact Option.noConfusion h
  · unfold pM1 at h
    simp only [] at h
    cases ha : digit? a with
    | none => rw [ha] at h; exact Option.noConfusion h
    | some x =>
      rw [ha] at h
      try simp only [] at h
      split at h
      · rename_i hcnd
        try simp at hcnd
        injection h with h
        rw [Prod.mk.injEq] at h
        obtain ⟨h1, -⟩ := h
        have b1 := digit?_le ha
        omega
      · exact Option.noConfusion h

theorem pD2_bound {l r : List Char} {d : Nat} (h : pD2 l = some (d, r)) :
    1 ≤ d ∧ d ≤ 31 := by
  rcases l with _ | ⟨a, _ | ⟨b, t⟩⟩
  · exact Option.noConfusion h
  · exact Option.noConfusion h
  · unfold pD2 at h
    simp only [] at h
    cases ha : digit? a with
    | none => rw [ha] at h; exact Option.noConfusion h
    | some x =>
      cases hb : digit? b with
      | none => rw [ha, hb] at h; exact Option.noConfusion h
      | some z =>
        rw [ha, hb] at h
        simp only [] at h
        split at h
        · rename_i hcnd
          try simp at hcnd
          injection h with h
          rw [Prod.mk.injEq] at h
          obtain ⟨h1, -⟩ := h
          have b2 := digit?_le hb
          omega
        · exact Option.noConfusion h

theorem pD1_bound {l r : List Char} {d : Nat} (h : pD1 l = some (d, r)) :
    1 ≤ d ∧ d ≤ 9 := by
  rcases l with _ | ⟨a, t⟩
  · exact Option.noConfusion h
  · unfold pD1 at h
    simp only [] at h
    cases ha : digit? a with
    | none => rw [ha] at h; exact Option.noConfusion h
    | some x =>
      rw [ha] at h
      try simp only [] at h
      split at h
      · rename_i hcnd
        try simp at hcnd
        injection h with h
        rw [Prod.mk.injEq] at h
        obtain ⟨h1, -⟩ := h
        have b1 := digit?_le ha
        omega
      · exact Option.noConfusion h

theorem dayEnd_spec {y m : Nat} {r2 : List Char} {y2 m2 d2 : Nat}
    (h : dayEnd y m r2 = some (y2, m2, d2)) :
    y2 = y ∧ m2 = m ∧ 1 ≤ d2 ∧ d2 ≤ 31 := by
  unfold dayEnd at h
  split at h
  · rename_i d heq
    injection h with h
    rw [Prod.mk.injEq] at h
    obtain ⟨h1, h2⟩ := h
    rw [Prod.mk.injEq] at h2
    obtain ⟨h2, h3⟩ := h2
    have := pD2_bound heq
    omega
  · split at h
    · rename_i d heq
      injection h with h
      rw [Prod.mk.injEq] at h
      obtain ⟨h1, h2⟩ := h
      rw [Prod.mk.injEq] at h2
      obtain ⟨h2, h3⟩ := h2
      have := pD1_bound heq
      omega
    · exact Option.noConfusion h

theorem yearEnd_spec {m d : Nat} {r3 : List Char} {y2 m2 d2 : Nat}
    (h : yearEnd m d r3 = some (y2, m2, d2)) :
    y2 ≤ 9999 ∧ m2 = m ∧ d2 = d := by
  unfold yearEnd at h
  split at h
  · rename_i y heq
    injection h with h
    rw [Prod.mk.injEq] at h
    obtain ⟨h1, h2⟩ := h
    rw [Prod.mk.injEq] at h2
    obtain ⟨h2, h3⟩ := h2
    have := pY4_bound heq
    omega
  · exact Option.noConfusion h

theorem monthPartDMY_bound {d : Nat} {r2 : List Char} {y2 m2 d2 : Nat}
    (h : monthPartDMY d r2 = some (y2, m2, d2)) :
    y2 ≤ 9999 ∧ 1 ≤ m2 ∧ m2 ≤ 12 ∧ d2 = d := by
  unfold monthPartDMY at h
  split at h
  · rename_i v hinner
    injection h with h
    subst h
    split at hinner
    · rename_i m r3 heq
      obtain ⟨hy, hm, hd⟩ := yearEnd_spec hinner
      have := pM2_bound heq
      omega
    · exact Option.noConfusion hinner
  · split at h
    · rename_i m r3 heq
      obtain ⟨hy, hm, hd⟩ := yearEnd_spec h
      have := pM1_bound heq
      omega
    · exact Option.noConfusion h

theorem pDateDMYcore_bound {l : List Char} {y m d : Nat}
    (h : pDateDMYcore l = some (y, m, d)) :
    y ≤ 9999 ∧ 1 ≤ m ∧ m ≤ 12 ∧ 1 ≤ d ∧ d ≤ 31 := by
  unfold pDateDMYcore at h
  split at h
  · rename_i v hinner
    injection h with h
    subst h
    split at hinner
    · rename_i dd r2 heq
      obtain ⟨hy, hm1, hm2, hd⟩ := monthPartDMY_bound hinner
      have := pD2_bound heq
      omega
    · exact Option.noConfusion hinner
  · split at h
    · rename_i dd r2 heq
      obtain ⟨hy, hm1, hm2, hd⟩ := monthPartDMY_bound h
      have := pD1_bound heq
      omega
    · exact Option.noConfusion h

theorem dayPartUS_bound {m : Nat} {r2 : List Char} {y2 m2 d2 : Nat}
    (h : dayPartUS m r2 = some (y2, m2, d2)) :
    y2 ≤ 9999 ∧ m2 = m ∧ 1 ≤ d2 ∧ d2 ≤ 31 := by
  unfold dayPartUS at h
  split at h
  · rename_i v hinner
    injection h with h
    subst h
    split at hinner
    · rename_i dd r3 heq
      obtain ⟨hy, hm, hd⟩ := yearEnd_spec hinner
      have := pD2_bound heq
      omega
    · exact Option.noConfusion hinner
  · split at h
    · rename_i dd r3 heq
      obtain ⟨hy, hm, hd⟩ := yearEnd_spec h
      have := pD1_bound heq
      omega
    · exact Option.noConfusion h

theorem pDateUScore_bound {l : List Char} {y m d : Nat}
    (h : pDateUScore l = some (y, m, d)) :
    y ≤ 9999 ∧ 1 ≤ m ∧ m ≤ 12 ∧ 1 ≤ d ∧ d ≤ 31 := by
  unfold pDateUScore at h
  split at h
  · rename_i v hinner
    injection h with h
    subst h
    split at hinner
    · rename_i mm r2 heq
      obtain ⟨hy, hm, hd1, hd2⟩ := dayPartUS_bound hinner
      have := pM2_bound heq
      omega
    · exact Option.noConfusion hinner
  · split at h
    · rename_i mm r2 heq
      obtain ⟨hy, hm, hd1, hd2⟩ := dayPartUS_bound h
      have := pM1_bound heq
      omega
    · exact Option.noConfusion h

theorem pDateISOcore_bound {l : List Char} {y m d : Nat}
    (h : pDateISOcore l = some (y, m, d)) :
    y ≤ 9999 ∧ 1 ≤ m ∧ m ≤ 12 ∧ 1 ≤ d ∧ d ≤ 31 := by
  unfold pDateISOcore at h
  split at h
  · rename_i yy r1 heq
    have hyy := pY4_bound heq
    split at h
    · rename_i v hinner
      injection h with h
      subst h
      split at hinner
      · rename_i mm r2 heq2
        obtain ⟨h1, h2, h3, h4⟩ := dayEnd_spec hinner
        have := pM2_bound heq2
        omega
      · exact Option.noConfusion hinner
    · split at h
      · rename_i mm r2 heq2
        obtain ⟨h1, h2, h3, h4⟩ := dayEnd_spec h
        have := pM1_bound heq2
        omega
      · exact Option.noConfusion h
  · exact Option.noConfusion h

theorem pDateYMDScore_bound {l : List Char} {y m d : Nat}
    (h : pDateYMDScore l = some (y, m, d)) :
    y ≤ 9999 ∧ 1 ≤ m ∧ m ≤ 12 ∧ 1 ≤ d ∧ d ≤ 31 := by
  unfold pDateYMDScore at h
  split at h
  · rename_i yy r1 heq
    have hyy := pY4_bound heq
    split at h
    · rename_i v hinner
      injection h with h
      subst h
      split at hinner
      · rename_i mm r2 heq2
        obtain ⟨h1, h2, h3, h4⟩ := dayEnd_spec hinner
        have := pM2_bound heq2
        omega
      · exact Option.noConfusion hinner
    · split at h
      · rename_i mm r2 heq2
        obtain ⟨h1, h2, h3, h4⟩ := dayEnd_spec h
        have := pM1_bound heq2
        omega
      · exact Option.noConfusion h
  · exact Option.noConfusion h

theorem strpDateISO_bound {l : List Char} {y m d : Nat}
    (h : strpDateISO l = some (y, m, d)) :
    1 ≤ y ∧ y ≤ 9999 ∧ 1 ≤ m ∧ m ≤ 12 ∧ 1 ≤ d ∧ d ≤ 31 ∧
      validYMD y m d = true := by
  unfold strpDateISO at h
  split at h
  · rename_i yy mm dd heq
    split at h
    · rename_i hv
      injection h with h
      rw [Prod.mk.injEq] at h
      obtain ⟨h1, h2⟩ := h
      rw [Prod.mk.injEq] at h2
      obtain ⟨h2, h3⟩ := h2
      subst h1; subst h2; subst h3
      have := pDateISOcore_bound heq
      have hv2 := hv
      unfold validYMD at hv2
      simp at hv2
      exact ⟨hv2.1, this.1, this.2.1, this.2.2.1, this.2.2.2.1,
             this.2.2.2.2, hv⟩
    · exact Option.noConfusion h
  · exact Option.noConfusion h

theorem strpDateUS_bound {l : List Char} {y m d : Nat}
    (h : strpDateUS l = some (y, m, d)) :
    1 ≤ y ∧ y ≤ 9999 ∧ 1 ≤ m ∧ m ≤ 12 ∧ 1 ≤ d ∧ d ≤ 31 ∧
      validYMD y m d = true := by
  unfold strpDateUS at h
  split at h
  · rename_i yy mm dd heq
    split at h
    · rename_i hv
      injection h with h
      rw [Prod.mk.injEq] at h
      obtain ⟨h1, h2⟩ := h
      rw [Prod.mk.injEq] at h2
      obtain ⟨h2, h3⟩ := h2
      subst h1; subst h2; subst h3
      have := pDateUScore_bound heq
      have hv2 := hv
      unfold validYMD at hv2
      simp at hv2
      exact ⟨hv2.1, this.1, this.2.1, this.2.2.1, this.2.2.2.1,
             this.2.2.2.2, hv⟩
    · exact Option.noConfusion h
  · exact Option.noConfusion h

theorem strpDateDMY_bound {l : List Char} {y m d : Nat}
    (h : strpDateDMY l = some (y, m, d)) :
    1 ≤ y ∧ y ≤ 9999 ∧ 1 ≤ m ∧ m ≤ 12 ∧ 1 ≤ d ∧ d ≤ 31 ∧
      validYMD y m d = true := by
  unfold strpDateDMY at h
  split at h
  · rename_i yy mm dd heq
    split at h
    · rename_i hv
      injection h with h
      rw [Prod.mk.injEq] at h
      obtain ⟨h1, h2⟩ := h
      rw [Prod.mk.injEq] at h2
      obtain ⟨h2, h3⟩ := h2
      subst h1; subst h2; subst h3
      have := pDateDMYcore_bound heq
      have hv2 := hv
      unfold validYMD at hv2
      simp at hv2
      exact ⟨hv2.1, this.1, this.2.1, this.2.2.1, this.2.2.2.1,
             this.2.2.2.2, hv⟩
    · exact Option.noConfusion h
  · exact Option.noConfusion h

theorem strpDateYMDS_bound {l : List Char} {y m d : Nat}
    (h : strpDateYMDS l = some (y, m, d)) :
    1 ≤ y ∧ y ≤ 9999 ∧ 1 ≤ m ∧ m ≤ 12 ∧ 1 ≤ d ∧ d ≤ 31 ∧
      validYMD y m d = true := by
  unfold strpDateYMDS at h
  split at h
  · rename_i yy mm dd heq
    split at h
    · rename_i hv
      injection h with h
      rw [Prod.mk.injEq] at h
      obtain ⟨h1, h2⟩ := h
      rw [Prod.mk.injEq] at h2
      obtain ⟨h2, h3⟩ := h2
      subst h1; subst h2; subst h3
      have := pDateYMDScore_bound heq
      have hv2 := hv
      unfold validYMD at hv2
      simp at hv2
      exact ⟨hv2.1, this.1, this.2.1, this.2.2.1, this.2.2.2.1,
             this.2.2.2.2, hv⟩
    · exact Option.noConfusion h
  · exact Option.noConfusion h

theorem dateAttempt_bound {l : List Char} {y m d : Nat}
    (h : dateAttempt l = some (y, m, d)) :
    1 ≤ y ∧ y ≤ 9999 ∧ 1 ≤ m ∧ m ≤ 12 ∧ 1 ≤ d ∧ d ≤ 31 ∧
      validYMD y m d = true := by
  unfold dateAttempt at h
  split at h
  · rename_i v heq
    injection h with h
    subst h
    exact strpDateISO_bound heq
  · split at h
    · rename_i v heq
      injection h with h
      subst h
      split at heq
      · exact strpDateUS_bound heq
      · exact Option.noConfusion heq
    · split at h
      · rename_i v heq
        injection h with h
        subst h
        split at heq
        · exact strpDateDMY_bound heq
        · exact Option.noConfusion heq
      · split at h
        · exact strpDateYMDS_bound h
        · exact Option.noConfusion h

theorem pad2_chars {n : Nat} (hn : n ≤ 99) :
    ∀ x ∈ pad2 n, ∃ k, k ≤ 9 ∧ x = digitChar k := by
  intro x hx
  unfold pad2 at hx
  simp at hx
  rcases hx with rfl | rfl
  · exact ⟨n / 10, by omega, rfl⟩
  · exact ⟨n % 10, by omega, rfl⟩

theorem yearChars_chars {y : Nat} (hy : y ≤ 9999) :
    ∀ x ∈ yearChars y, ∃ k, k ≤ 9 ∧ x = digitChar k := by
  intro x hx
  unfold yearChars at hx
  by_cases h1 : y < 10
  · rw [if_pos h1] at hx
    simp at hx
    exact ⟨y, by omega, hx⟩
  · rw [if_neg h1] at hx
    by_cases h2 : y < 100
    · rw [if_pos h2] at hx
      simp at hx
      rcases hx with rfl | rfl
      · exact ⟨y / 10, by omega, rfl⟩
      · exact ⟨y % 10, by omega, rfl⟩
    · rw [if_neg h2] at hx
      by_cases h3 : y < 1000
      · rw [if_pos h3] at hx
        simp at hx
        rcases hx with rfl | rfl | rfl
        · exact ⟨y / 100, by omega, rfl⟩
        · exact ⟨y / 10 % 10, by omega, rfl⟩
        · exact ⟨y % 10, by omega, rfl⟩
      · rw [if_neg h3] at hx
        simp at hx
        rcases hx with rfl | rfl | rfl | rfl
        · exact ⟨y / 1000, by omega, rfl⟩
        · exact ⟨y / 100 % 10, by omega, rfl⟩
        · exact ⟨y / 10 % 10, by omega, rfl⟩
        · exact ⟨y % 10, by omega, rfl⟩

theorem render_chars {y m d : Nat} (hy : y ≤ 9999) (hm : m ≤ 99)
    (hd : d ≤ 99) :
    ∀ x ∈ renderDate y m d, x = '-' ∨ ∃ k, k ≤ 9 ∧ x = digitChar k := by
  intro x hx
  unfold renderDate at hx
  simp at hx
  rcases hx with hx | rfl | hx | rfl | hx
  · exact Or.inr (yearChars_chars hy x hx)
  · exact Or.inl rfl
  · exact Or.inr (pad2_chars hm x hx)
  · exact Or.inl rfl
  · exact Or.inr (pad2_chars hd x hx)

theorem containsFalseOfForall {c : Char} {l : List Char}
    (h : ∀ x ∈ l, x ≠ c) : l.contains c = false := by
  induction l with
  | nil => rfl
  | cons a t ih =>
    have ha : a ≠ c := h a (by simp)
    have ht := ih fun x hx => h x (by simp [hx])
    rw [List.contains_cons, ht]
    rw [beq_eq_false_iff_ne.mpr (Ne.symm ha)]
    rfl

theorem containsTrueOfMem {c : Char} {l : List Char} (h : c ∈ l) :
    l.contains c = true := by
  induction l with
  | nil => simp at h
  | cons a t ih =>
    rw [List.contains_cons]
    rcases List.mem_cons.mp h with rfl | hm
    · simp
    · rw [ih hm]
      simp

theorem render_no_slash {y m d : Nat} (hy : y ≤ 9999) (hm : m ≤ 99)
    (hd : d ≤ 99) : (renderDate y m d).contains '/' = false :=
  containsFalseOfForall fun x hx => by
    rcases render_chars hy hm hd x hx with rfl | ⟨k, hk, rfl⟩
    · decide
    · exact digitChar_ne_slash hk

theorem render_has_dash (y m d : Nat) :
    (renderDate y m d).contains '-' = true :=
  containsTrueOfMem (by unfold renderDate; simp)

theorem render_ne_nil (y m d : Nat) : (renderDate y m d).isEmpty = false := by
  unfold renderDate yearChars
  by_cases h1 : y < 10
  · rw [if_pos h1]; rfl
  · rw [if_neg h1]
    by_cases h2 : y < 100
    · rw [if_pos h2]; rfl
    · rw [if_neg h2]
      by_cases h3 : y < 1000
      · rw [if_pos h3]; rfl
      · rw [if_neg h3]; rfl

theorem splitDash_ne_nil (l : List Char) : splitDash l ≠ [] := by
  cases l with
  | nil => simp [splitDash]
  | cons a t =>
    simp only [splitDash]
    cases h : splitDash t with
    | nil => simp
    | cons g gs =>
      simp only []
      split <;> simp

theorem splitDash_nodash {l : List Char} (h : ∀ x ∈ l, x ≠ '-') :
    splitDash l = [l] := by
  induction l with
  | nil => rfl
  | cons a t ih =>
    have ht := ih fun x hx => h x (by simp [hx])
    simp only [splitDash]
    rw [ht]
    simp only []
    rw [if_neg (h a (by simp))]

theorem splitDash_append {a r : List Char} (h : ∀ x ∈ a, x ≠ '-') :
    splitDash (a ++ '-' :: r) = a :: splitDash r := by
  induction a with
  | nil =>
    simp only [List.nil_append, splitDash]
    cases hs : splitDash r with
    | nil => exact absurd hs (splitDash_ne_nil r)
    | cons g gs =>
      simp
  | cons c t ih =>
    have ht := ih fun x hx => h x (by simp [hx])
    simp only [List.cons_append, splitDash]
    have ht2 : splitDash (List.append t ('-' :: r)) = t :: splitDash r := ht
    rw [ht2]
    simp only []
    rw [if_neg (h c (by simp))]

theorem splitDash_render {y m d : Nat} (hy : y ≤ 9999) (hm : m ≤ 99)
    (hd : d ≤ 99) :
    splitDash (renderDate y m d) = [yearChars y, pad2 m, pad2 d] := by
  unfold renderDate
  rw [splitDash_append (fun x hx => by
        rcases yearChars_chars hy x hx with ⟨k, hk, rfl⟩
        exact digitChar_ne_dash hk)]
  rw [splitDash_append (fun x hx => by
        rcases pad2_chars hm x hx with ⟨k, hk, rfl⟩
        exact digitChar_ne_dash hk)]
  rw [splitDash_nodash (fun x hx => by
        rcases pad2_chars hd x hx with ⟨k, hk, rfl⟩
        exact digitChar_ne_dash hk)]

theorem render_eq_lt10 {y : Nat} (h : y < 10) (m d : Nat) :
    renderDate y m d =
      digitChar y :: '-' :: digitChar (m / 10) :: digitChar (m % 10) ::
        '-' :: digitChar (d / 10) :: digitChar (d % 10) :: [] := by
  unfold renderDate yearChars pad2
  rw [if_pos h]
  rfl

theorem render_eq_lt100 {y : Nat} (h1 : ¬ y < 10) (h2 : y < 100) (m d : Nat) :
    renderDate y m d =
      digitChar (y / 10) :: digitChar (y % 10) :: '-' ::
        digitChar (m / 10) :: digitChar (m % 10) ::
        '-' :: digitChar (d / 10) :: digitChar (d % 10) :: [] := by
  unfold renderDate yearChars pad2
  rw [if_neg h1, if_pos h2]
  rfl

theorem render_eq_lt1000 {y : Nat} (h1 : ¬ y < 100) (h2 : y < 1000)
    (m d : Nat) :
    renderDate y m d =
      digitChar (y / 100) :: digitChar (y / 10 % 10) :: digitChar (y % 10) ::
        '-' :: digitChar (m / 10) :: digitChar (m % 10) ::
        '-' :: digitChar (d / 10) :: digitChar (d % 10) :: [] := by
  unfold renderDate yearChars pad2
  rw [if_neg (by omega), if_neg h1, if_pos h2]
  rfl

theorem pM2_pad2 {m : Nat} (h1 : 1 ≤ m) (h2 : m ≤ 12) (r : List Char) :
    pM2 (digitChar (m / 10) :: digitChar (m % 10) :: r) = some (m, r) := by
  unfold pM2
  simp only []
  rw [digit?_digitChar (by omega), digit?_digitChar (by omega)]
  simp only []
  rw [if_pos (by simp; omega)]
  have hval : 10 * (m / 10) + m % 10 = m := by omega
  rw [hval]

theorem pD2_pad2 {d : Nat} (h1 : 1 ≤ d) (h2 : d ≤ 31) (r : List Char) :
    pD2 (digitChar (d / 10) :: digitChar (d % 10) :: r) = some (d, r) := by
  unfold pD2
  simp only []
  rw [digit?_digitChar (by omega), digit?_digitChar (by omega)]
  simp only []
  rw [if_pos (by simp; omega)]
  have hval : 10 * (d / 10) + d % 10 = d := by omega
  rw [hval]

theorem pY4_yearChars_big {y : Nat} (h1 : 1000 ≤ y) (h2 : y ≤ 9999)
    (r : List Char) : pY4 (yearChars y ++ r) = some (y, r) := by
  unfold yearChars
  rw [if_neg (by omega), if_neg (by omega), if_neg (by omega)]
  simp only [List.cons_append, List.nil_append]
  unfold pY4
  simp only []
  rw [digit?_digitChar (by omega), digit?_digitChar (by omega),
      digit?_digitChar (by omega), digit?_digitChar (by omega)]
  simp only []
  have hval : y / 1000 * 1000 + y / 100 % 10 * 100 + y / 10 % 10 * 10 +
      y % 10 = y := by omega
  rw [hval]

theorem strpDateISO_render_big {y m d : Nat} (h0 : 1000 ≤ y) (h9 : y ≤ 9999)
    (hm1 : 1 ≤ m) (hm2 : m ≤ 12) (hd1 : 1 ≤ d) (hd2 : d ≤ 31)
    (hv : validYMD y m d = true) :
    strpDateISO (renderDate y m d) = some (y, m, d) := by
  unfold strpDateISO pDateISOcore
  unfold renderDate
  rw [pY4_yearChars_big h0 h9]
  simp only []
  unfold pad2
  simp only [List.cons_append, List.nil_append]
  rw [pM2_pad2 hm1 hm2]
  simp only []
  unfold dayEnd
  rw [pD2_pad2 hd1 hd2]
  simp only []
  rw [if_pos hv]

theorem pY4_render_small {y m d : Nat} (hy : y < 1000) :
    pY4 (renderDate y m d) = none := by
  by_cases h1 : y < 10
  · rw [render_eq_lt10 h1]
    unfold pY4
    simp only []
    rw [digit?_digitChar (by omega), digit?_dash]
  · by_cases h2 : y < 100
    · rw [render_eq_lt100 h1 h2]
      unfold pY4
      simp only []
      rw [digit?_digitChar (by omega), digit?_digitChar (by omega),
          digit?_dash]
    · rw [render_eq_lt1000 h2 hy]
      unfold pY4
      simp only []
      rw [digit?_digitChar (by omega), digit?_digitChar (by omega),
          digit?_digitChar (by omega), digit?_dash]

theorem strpDateISO_render_small {y m d : Nat} (hy : y < 1000) :
    strpDateISO (renderDate y m d) = none := by
  unfold strpDateISO pDateISOcore
  rw [pY4_render_small hy]

theorem monthPartDMY_tail {m : Nat} (dv d : Nat) (hm1 : 1 ≤ m)
    (hm2 : m ≤ 12) :
    monthPartDMY dv (digitChar (m / 10) :: digitChar (m % 10) :: '-' ::
      digitChar (d / 10) :: digitChar (d % 10) :: []) = none := by
  unfold monthPartDMY
  rw [pM2_pad2 hm1 hm2]
  simp only []
  unfold yearEnd
  have hpy : pY4 (digitChar (d / 10) :: digitChar (d % 10) :: []) = none := rfl
  rw [hpy]
  simp only []
  unfold pM1
  simp only []
  rw [digit?_digitChar (by omega : m / 10 ≤ 9)]
  simp only []
  by_cases hm10 : m < 10
  · rw [if_neg (by omega)]
  · rw [if_pos (by omega)]
    split
    · rename_i mm r3 heq
      exfalso
      injection heq with heq
      rw [Prod.mk.injEq] at heq
      obtain ⟨g1, g2⟩ := heq
      injection g2 with g2a g2b
      exact digitChar_ne_dash (by omega) g2a
    · rfl

theorem strpDateDMY_render_small {y m d : Nat} (hy1 : 1 ≤ y) (hy : y < 1000)
    (hm1 : 1 ≤ m) (hm2 : m ≤ 12) (hd1 : 1 ≤ d) (hd2 : d ≤ 31) :
    strpDateDMY (renderDate y m d) = none := by
  suffices hcore : pDateDMYcore (renderDate y m d) = none by
    unfold strpDateDMY
    rw [hcore]
  by_cases h1 : y < 10
  · rw [render_eq_lt10 h1]
    unfold pDateDMYcore
    have hpd2 : pD2 (digitChar y :: '-' :: digitChar (m / 10) ::
        digitChar (m % 10) :: '-' :: digitChar (d / 10) ::
        digitChar (d % 10) :: []) = none := by
      unfold pD2
      simp only []
      rw [digit?_digitChar (by omega), digit?_dash]
    rw [hpd2]
    simp only []
    unfold pD1
    simp only []
    rw [digit?_digitChar (by omega)]
    simp only []
    rw [if_pos (by omega)]
    simp only []
    rw [monthPartDMY_tail y d hm1 hm2]
  · by_cases h2 : y < 100
    · rw [render_eq_lt100 h1 h2]
      unfold pDateDMYcore
      unfold pD2
      simp only []
      rw [digit?_digitChar (by omega), digit?_digitChar (by omega)]
      simp only []
      by_cases hc : (y / 10 = 3 ∧ y % 10 ≤ 1) ∨ y / 10 = 1 ∨ y / 10 = 2 ∨
          (y / 10 = 0 ∧ 1 ≤ y % 10)
      · rw [if_pos (by simp; omega)]
        simp only []
        have hval : 10 * (y / 10) + y % 10 = y := by omega
        rw [hval]
        rw [monthPartDMY_tail y d hm1 hm2]
        simp only []
        unfold pD1
        simp only []
        rw [digit?_digitChar (by omega)]
        simp only []
        rw [if_pos (by omega)]
        split
        · rename_i dd r2 heq
          exfalso
          injection heq with heq
          rw [Prod.mk.injEq] at heq
          obtain ⟨g1, g2⟩ := heq
          injection g2 with g2a g2b
          exact digitChar_ne_dash (by omega) g2a
        · rfl
      · rw [if_neg (by simp; omega)]
        simp only []
        unfold pD1
        simp only []
        rw [digit?_digitChar (by omega)]
        simp only []
        rw [if_pos (by omega)]
        split
        · rename_i dd r2 heq
          exfalso
          injection heq with heq
          rw [Prod.mk.injEq] at heq
          obtain ⟨g1, g2⟩ := heq
          injection g2 with g2a g2b
          exact digitChar_ne_dash (by omega) g2a
        · rfl
    · rw [render_eq_lt1000 h2 hy]
      unfold pDateDMYcore
      unfold pD2
      simp only []
      rw [digit?_digitChar (by omega), digit?_digitChar (by omega)]
      simp only []
      by_cases hc : (y / 100 = 3 ∧ y / 10 % 10 ≤ 1) ∨ y / 100 = 1 ∨
          y / 100 = 2 ∨ (y / 100 = 0 ∧ 1 ≤ y / 10 % 10)
      · rw [if_pos (by simp; omega)]
        split
        · rename_i v hinner
          exfalso
          split at hinner
          · rename_i dd r2 heq
            injection heq with heq
            rw [Prod.mk.injEq] at heq
            obtain ⟨g1, g2⟩ := heq
            injection g2 with g2a g2b
            exact digitChar_ne_dash (by omega) g2a
          · exact Option.noConfusion hinner
        · unfold pD1
          simp only []
          rw [digit?_digitChar (by omega)]
          simp only []
          rw [if_pos (by omega)]
          split
          · rename_i dd r2 heq
            exfalso
            injection heq with heq
            rw [Prod.mk.injEq] at heq
            obtain ⟨g1, g2⟩ := heq
            injection g2 with g2a g2b
            exact digitChar_ne_dash (by omega) g2a
          · rfl
      · rw [if_neg (by simp; omega)]
        simp only []
        unfold pD1
        simp only []
        rw [digit?_digitChar (by omega)]
        simp only []
        rw [if_pos (by omega)]
        split
        · rename_i dd r2 heq
          exfalso
          injection heq with heq
          rw [Prod.mk.injEq] at heq
          obtain ⟨g1, g2⟩ := heq
          injection g2 with g2a g2b
          exact digitChar_ne_dash (by omega) g2a
        · rfl

theorem dateAttempt_render_small {y m d : Nat} (hy1 : 1 ≤ y) (hy : y < 1000)
    (hm1 : 1 ≤ m) (hm2 : m ≤ 12) (hd1 : 1 ≤ d) (hd2 : d ≤ 31) :
    dateAttempt (renderDate y m d) = none := by
  have hsl : (renderDate y m d).contains '/' = false :=
    render_no_slash (by omega) (by omega) (by omega)
  unfold dateAttempt
  rw [strpDateISO_render_small hy]
  simp only []
  rw [if_neg (by rw [hsl]; simp)]
  simp only []
  have hsd : (splitDash (renderDate y m d)).length = 3 := by
    rw [splitDash_render (by omega) (by omega) (by omega)]
    rfl
  rw [if_pos (by rw [render_has_dash, hsd]; simp)]
  rw [strpDateDMY_render_small hy1 hy hm1 hm2 hd1 hd2]
  simp only []
  rw [if_neg (by rw [hsl]; simp)]

theorem dateAttempt_render_big {y m d : Nat} (h0 : 1000 ≤ y) (h9 : y ≤ 9999)
    (hm1 : 1 ≤ m) (hm2 : m ≤ 12) (hd1 : 1 ≤ d) (hd2 : d ≤ 31)
    (hv : validYMD y m d = true) :
    dateAttempt (renderDate y m d) = some (y, m, d) := by
  unfold dateAttempt
  rw [strpDateISO_render_big h0 h9 hm1 hm2 hd1 hd2 hv]

theorem parseDateL_render_fix {y m d : Nat} (hy1 : 1 ≤ y) (hy9 : y ≤ 9999)
    (hm1 : 1 ≤ m) (hm2 : m ≤ 12) (hd1 : 1 ≤ d) (hd2 : d ≤ 31)
    (hv : validYMD y m d = true) :
    parseDateL (renderDate y m d) = renderDate y m d := by
  unfold parseDateL
  rw [if_neg (by rw [render_ne_nil]; simp)]
  by_cases hbig : 1000 ≤ y
  · rw [dateAttempt_render_big hbig hy9 hm1 hm2 hd1 hd2 hv]
  · rw [dateAttempt_render_small hy1 (by omega) hm1 hm2 hd1 hd2]

theorem parseDateL_idem (l : List Char) :
    parseDateL (parseDateL l) = parseDateL l := by
  by_cases he : l.isEmpty = true
  · have h1 : parseDateL l = [] := by
      unfold parseDateL
      rw [if_pos he]
    rw [h1]
    rfl
  · cases hda : dateAttempt l with
    | none =>
      have h1 : parseDateL l = l := by
        unfold parseDateL
        rw [if_neg he, hda]
      rw [h1]
      exact h1
    | some v =>
      obtain ⟨y, m, d⟩ := v
      have hb := dateAttempt_bound hda
      have h1 : parseDateL l = renderDate y m d := by
        unfold parseDateL
        rw [if_neg he, hda]
      rw [h1]
      exact parseDateL_render_fix hb.1 hb.2.1 hb.2.2.1 hb.2.2.2.1
        hb.2.2.2.2.1 hb.2.2.2.2.2.1 hb.2.2.2.2.2.2

theorem parse_date_idem (s : String) :
    parse_date (parse_date s) = parse_date s := by
  unfold parse_date
  show String.mk (parseDateL (parseDateL s.data)) =
    String.mk (parseDateL s.data)
  rw [parseDateL_idem]

theorem parse_date_verbatim {s : String} (h : dateAttempt s.data = none) :
    parse_date s = s := by
  unfold parse_date parseDateL
  by_cases he : s.data.isEmpty = true
  · have h0 : s.data = [] := by
      cases hs : s.data with
      | nil => rfl
      | cons a t => rw [hs] at he; simp [List.isEmpty] at he
    rw [if_pos he]
    rw [← h0]
  · rw [if_neg he, h]

/-- Claim C3: a row whose visit id was already seen is discarded with no
side effect at all (the processor state is returned unchanged), the whole
pipeline computes the same final state on the input as on the input with
later duplicate-visit-id rows removed, and the fact table carries exactly
the distinct visit ids of the input in first-occurrence order. -/
theorem C3_duplicate_discard :
    (∀ (st : St) (row : Row),
      st.processed_visit_ids.contains row.visit_id = true →
      processRow st row = Except.ok st) ∧
    (∀ rows : List Row, runAll rows = runAll (dedupRows [] rows)) ∧
    (∀ (rows : List Row) (st : St), runAll rows = Except.ok st →
      st.visits.map FactVisit.visit_id =
        dedupStrs [] (rows.map Row.visit_id)) := by
  refine ⟨processRow_dup, ?_, ?_⟩
  · intro rows
    unfold runAll
    rw [runFrom_dedup rows initState]
    rfl
  · intro rows st h
    obtain ⟨stP, hr, hres⟩ := runAll_inv rows st h
    have hv := runFrom_visit_ids rows initState stP hr
    rw [hres]
    have hvis : (updatePatientStatuses stP).visits = stP.visits :=
      (resolver_untouched stP).2.2.2.2.2.2.2.2.2.1
    rw [hvis, hv]
    simp [initState]

/-- Claim C9: batch boundaries have no semantic effect: running any list of
consecutive batches equals running their concatenation row by row, the
grouping loop of process_data partitions the input without loss or
reordering at every batch size, and the final result is independent of the
batch-size parameter. -/
theorem C9_batch_equivalence :
    (∀ batches : List (List Row),
      runAllBatches batches = runAll batches.flatten) ∧
    (∀ (bs : Nat) (rows : List Row), (chunksOf bs rows).flatten = rows) ∧
    (∀ (bs bs2 : Nat) (rows : List Row),
      runChunked bs rows = runChunked bs2 rows) := by
  have hb : ∀ batches : List (List Row),
      runAllBatches batches = runAll batches.flatten := by
    intro batches
    unfold runAllBatches runAll
    rw [runBatchesFrom_join]
  have hch : ∀ (bs : Nat) (rows : List Row), (chunksOf bs rows).flatten = rows := by
    intro bs rows
    unfold chunksOf
    rw [chunksGo_join]
    rfl
  refine ⟨hb, hch, ?_⟩
  intro bs bs2 rows
  unfold runChunked
  rw [hb, hb, hch, hch]

/-- Claim C10: composite keys are joined with a literal pipe and no
escaping, so two rows with distinct field tuples that embed the delimiter
collide: both receive surrogate id 1 in the provider, location, diagnosis
and treatment registries, and only the fields of the first row are stored. -/
theorem C10_pipe_collision :
    providerKey pipeRowA = providerKey pipeRowB ∧
    (pipeRowA.doctor_name ≠ pipeRowB.doctor_name ∨
     pipeRowA.doctor_title ≠ pipeRowB.doctor_title) ∧
    (okState (runAll [pipeRowA, pipeRowB])).providers =
      [(1, { provider_id := 1, doctor_name := "a|b", doctor_title := "c",
             doctor_department := "d" })] ∧
    (okState (runAll [pipeRowA, pipeRowB])).locations =
      [(1, { location_id := 1, clinic_name := "x|y", room_number := "z" })] ∧
    (okState (runAll [pipeRowA, pipeRowB])).primary_diagnoses =
      [(1, { primary_diagnosis_id := 1, primary_diagnosis_code := "m|n",
             primary_diagnosis_desc := "o" })] ∧
    (okState (runAll [pipeRowA, pipeRowB])).secondary_diagnoses =
      [(1, { secondary_diagnosis_id := 1, secondary_diagnosis_code := "q|r",
             secondary_diagnosis_desc := "s" })] ∧
    (okState (runAll [pipeRowA, pipeRowB])).treatments =
      [(1, { treatment_id := 1, treatment_code := "u|v",
             treatment_desc := "w" })] ∧
    (okState (runAll [pipeRowA, pipeRowB])).visits.map
      FactVisit.provider_id = [1, 1] ∧
    (okState (runAll [pipeRowA, pipeRowB])).visits.map
      FactVisit.location_id = [1, 1] ∧
    (okState (runAll [pipeRowA, pipeRowB])).visits.map
      FactVisit.primary_diagnosis_id = ["1", "1"] ∧
    (okState (runAll [pipeRowA, pipeRowB])).visits.map
      FactVisit.secondary_diagnosis_id = ["1", "1"] ∧
    (okState (runAll [pipeRowA, pipeRowB])).visits.map
      FactVisit.treatment_id = ["1", "1"] := by
  refine ⟨rfl, by left; decide, rfl, rfl, rfl, rfl, rfl, rfl, rfl, rfl,
    rfl, rfl⟩

/-- Claim C8: monetary coercion maps empty and malformed input to 0.0 and
never raises, and the integer-duration coercion maps empty, malformed and
nan input to 0 and truncates fractional day counts; but on the well-formed
float text inf the conversion int(float(v)) raises an OverflowError that
the except (ValueError, TypeError) clause does not catch, so a single row
carrying it aborts the whole run instead of defaulting to 0 — the code
contradicts the never-raises contract the claim states. -/
theorem C8_numeric_coercion_defaults :
    safe_float "" = PyF.finite 0 0 ∧
    safe_float "abc" = PyF.finite 0 0 ∧
    safe_float "12.5" = PyF.finite 125 1 ∧
    safe_float "inf" = PyF.posInf ∧
    durParse "" = Except.ok 0 ∧
    durParse "abc" = Except.ok 0 ∧
    durParse "12.7" = Except.ok 12 ∧
    durParse "-3.9" = Except.ok (-3) ∧
    durParse "nan" = Except.ok 0 ∧
    durParse "inf" = Except.error PyErr.overflowError ∧
    runAll [infRow] = Except.error PyErr.overflowError ∧
    (∀ s : String, pyFloatParse s = none →
      safe_float s = PyF.finite 0 0 ∧ durParse s = Except.ok 0) := by
  refine ⟨by decide, by decide, by decide, by decide, by rfl, by rfl,
    by rfl, by rfl, by rfl, by rfl, by rfl, ?_⟩
  intro s hs
  constructor
  · unfold safe_float
    by_cases hse : s = ""
    · rw [if_pos hse]
    · rw [if_neg hse, hs]
  · unfold durParse
    rw [hs]

/-- Witness for claim C8 at a concrete malformed input. -/
theorem C8_numeric_coercion_defaults_witness :
    safe_float "garbage" = PyF.finite 0 0 ∧ durParse "garbage" = Except.ok 0 :=
  C8_numeric_coercion_defaults.2.2.2.2.2.2.2.2.2.2.2 "garbage" (by decide)

/-- Counterexample for claim C6 as stated: after prescription RXA has been
materialized by rxRow1, the later rxRow2 supplies the same id with every
non-key attribute empty, yet its fact reference is RXA rather than the
empty string; and rxRow3 supplies a fresh id with the nonempty duration
text 0, yet the registry is left unchanged and its reference is empty,
because the coerced integer 0 counts as absent. -/
theorem C6_counterexample :
    (okState (runAll [rxRow1, rxRow2, rxRow3])).visits.map
      FactVisit.prescription_id = ["RXA", "RXA", ""] ∧
    rxRow2.prescription_id = "RXA" ∧
    rxRow2.prescription_drug_name = "" ∧
    rxRow2.prescription_dosage = "" ∧
    rxRow2.prescription_frequency = "" ∧
    rxRow2.prescription_duration_days = "" ∧
    rxRow3.prescription_id = "RXB" ∧
    rxRow3.prescription_drug_name = "" ∧
    rxRow3.prescription_dosage = "" ∧
    rxRow3.prescription_frequency = "" ∧
    rxRow3.prescription_duration_days = "0" ∧
    (okState (runAll [rxRow1, rxRow2, rxRow3])).prescriptions.map
      Prod.fst = ["RXA"] ∧
    hasKey "RXB" (okState (runAll [rxRow1, rxRow2, rxRow3])).prescriptions =
      false := by
  refine ⟨rfl, rfl, rfl, rfl, rfl, rfl, rfl, rfl, rfl, rfl, rfl, rfl, rfl⟩

/-- Claim C6 as amended: a prescription or lab order is materialized only
when its source id is supplied, not yet registered, and at least one
non-key attribute is present (a string attribute nonempty, or the coerced
integer duration nonzero); when the id is supplied but not yet registered
and no non-key attribute is present, the registry is left unchanged and
the reference is the empty string; when the id is already registered the
reference is the id itself regardless of the attributes of the row. -/
theorem C6_prescription_materialization :
    (∀ (st : St) (row : Row), row.prescription_id = "" →
      processPrescription st row = Except.ok (st, "")) ∧
    (∀ (st : St) (row : Row),
      hasKey row.prescription_id st.prescriptions = true →
      processPrescription st row = Except.ok (st, row.prescription_id)) ∧
    (∀ (st : St) (row : Row) (dur : Int), row.prescription_id ≠ "" →
      hasKey row.prescription_id st.prescriptions = false →
      durParse row.prescription_duration_days = Except.ok dur →
      ((row.prescription_drug_name = "" ∧ row.prescription_dosage = "" ∧
        row.prescription_frequency = "" ∧ dur = 0) →
        processPrescription st row = Except.ok (st, "")) ∧
      ((row.prescription_drug_name ≠ "" ∨ row.prescription_dosage ≠ "" ∨
        row.prescription_frequency ≠ "" ∨ dur ≠ 0) →
        processPrescription st row = Except.ok
          ({ st with prescriptions := st.prescriptions ++
              [(row.prescription_id,
                { prescription_id := row.prescription_id
                  prescription_drug_name := row.prescription_drug_name
                  prescription_dosage := row.prescription_dosage
                  prescription_frequency := row.prescription_frequency
                  prescription_duration_days := dur })] },
            row.prescription_id))) ∧
    (∀ (st : St) (row : Row), row.lab_order_id = "" →
      processLabOrder st row = (st, "")) ∧
    (∀ (st : St) (row : Row),
      hasKey row.lab_order_id st.lab_orders = true →
      processLabOrder st row = (st, row.lab_order_id)) ∧
    (∀ (st : St) (row : Row), row.lab_order_id ≠ "" →
      hasKey row.lab_order_id st.lab_orders = false →
      ((row.lab_test_code = "" ∧ row.lab_name = "" ∧
        row.lab_result_value = "" ∧ row.lab_result_units = "" ∧
        row.lab_result_date = "") → processLabOrder st row = (st, "")) ∧
      ((row.lab_test_code ≠ "" ∨ row.lab_name ≠ "" ∨
        row.lab_result_value ≠ "" ∨ row.lab_result_units ≠ "" ∨
        row.lab_result_date ≠ "") →
        processLabOrder st row =
          ({ st with lab_orders := st.lab_orders ++
              [(row.lab_order_id,
                { lab_order_id := row.lab_order_id
                  lab_test_code := row.lab_test_code
                  lab_name := row.lab_name
                  lab_result_value := row.lab_result_value
                  lab_result_units := row.lab_result_units
                  lab_result_date := parse_date row.lab_result_date })] },
            row.lab_order_id))) := by
  refine ⟨?_, ?_, ?_, ?_, ?_, ?_⟩
  · intro st row h
    unfold processPrescription
    simp only []
    rw [if_pos h]
  · intro st row h
    unfold processPrescription
    simp only []
    by_cases h1 : row.prescription_id = ""
    · rw [if_pos h1, h1]
    · rw [if_neg h1, if_pos h]
  · intro st row dur h1 h2 hd
    unfold processPrescription
    simp only []
    rw [if_neg h1, if_neg (by rw [h2]; simp), hd]
    simp only []
    constructor
    · intro ⟨e1, e2, e3, e4⟩
      rw [if_neg (by simp [e1, e2, e3, e4])]
    · intro hor
      rw [if_pos (by
        rcases hor with h | h | h | h <;> simp [h])]
  · intro st row h
    unfold processLabOrder
    simp only []
    rw [if_pos h]
  · intro st row h
    unfold processLabOrder
    simp only []
    by_cases h1 : row.lab_order_id = ""
    · rw [if_pos h1, h1]
    · rw [if_neg h1, if_pos h]
  · intro st row h1 h2
    unfold processLabOrder
    simp only []
    rw [if_neg h1, if_neg (by rw [h2]; simp)]
    constructor
    · intro ⟨e1, e2, e3, e4, e5⟩
      rw [if_neg (by simp [e1, e2, e3, e4, e5])]
    · intro hor
      rw [if_pos (by
        rcases hor with h | h | h | h | h <;> simp [h])]

/-- Witness for the amended claim C6: the three concrete rows exercise the
empty-id, fresh-and-present, fresh-and-absent and already-registered
paths. -/
theorem C6_prescription_materialization_witness :
    processPrescription initState rxRow1 = Except.ok
      ({ initState with prescriptions := [("RXA",
          { prescription_id := "RXA", prescription_drug_name := "DrugA",
            prescription_dosage := "", prescription_frequency := "",
            prescription_duration_days := 0 })] }, "RXA") ∧
    processPrescription
      { initState with prescriptions := [("RXA",
          { prescription_id := "RXA", prescription_drug_name := "DrugA",
            prescription_dosage := "", prescription_frequency := "",
            prescription_duration_days := 0 })] } rxRow2 = Except.ok
      ({ initState with prescriptions := [("RXA",
          { prescription_id := "RXA", prescription_drug_name := "DrugA",
            prescription_dosage := "", prescription_frequency := "",
            prescription_duration_days := 0 })] }, "RXA") ∧
    processPrescription initState rxRow3 = Except.ok (initState, "") ∧
    processLabOrder initState rxRow1 = (initState, "") := by
  refine ⟨?_, ?_, ?_, ?_⟩
  · have h := ((C6_prescription_materialization.2.2.1 initState rxRow1 0
      (by decide) (by decide) (by rfl)).2 (by left; decide))
    exact h
  · exact C6_prescription_materialization.2.1 _ rxRow2 (by decide)
  · exact (C6_prescription_materialization.2.2.1 initState rxRow3 0
      (by decide) (by decide) (by rfl)).1 (by decide)
  · exact C6_prescription_materialization.2.2.2.1 initState rxRow1 (by decide)

/-- Claim C1: after the pipeline has consumed any row sequence (and the
status resolver has run), every fact row satisfies referential integrity:
each of its ten dimension references that is not the empty-string or zero
sentinel resolves to a stored record of the corresponding registry. -/
theorem C1_referential_integrity (rows : List Row) (st : St)
    (h : runAll rows = Except.ok st) : ∀ f, f ∈ st.visits → FKok st f := by
  obtain ⟨stP, hr, hres⟩ := runAll_inv rows st h
  have hfk := runFrom_fkok rows initState stP hr initState_allcomp
    initState_fkok
  have hnd := runFrom_nodup rows initState stP hr initState_nodup
  intro f hf
  rw [hres] at hf ⊢
  have hv : (updatePatientStatuses stP).visits = stP.visits :=
    (resolver_untouched stP).2.2.2.2.2.2.2.2.2.1
  rw [hv] at hf
  exact resolver_fkok stP hnd f (hfk f hf)

/-- Witness for claim C1 on a concrete two-row run and its first fact. -/
theorem C1_referential_integrity_witness :
    FKok (okState (runAll [wRow, wRow2]))
      { visit_id := "V1", patient_id := "P1", insurance_id := "I1",
        billing_id := "B1", provider_id := 1, location_id := 1,
        primary_diagnosis_id := "1", secondary_diagnosis_id := "1",
        treatment_id := "1", prescription_id := "RX1",
        lab_order_id := "L1", visit_datetime := "2022-05-01",
        visit_type := "checkup" } :=
  C1_referential_integrity [wRow, wRow2] (okState (runAll [wRow, wRow2]))
    (by rfl)
    { visit_id := "V1", patient_id := "P1", insurance_id := "I1",
      billing_id := "B1", provider_id := 1, location_id := 1,
      primary_diagnosis_id := "1", secondary_diagnosis_id := "1",
      treatment_id := "1", prescription_id := "RX1",
      lab_order_id := "L1", visit_datetime := "2022-05-01",
      visit_type := "checkup" }
    (by decide)

/-- Claim C4: after any run, each composite-keyed registry satisfies the
surrogate-key shape invariant CompInv — the lookup table maps pairwise
distinct keys to the ids 1..n in first-seen order with the store keyed by
exactly those ids, each new id having been the size plus one — and every
composite key of a processed (non-duplicate) row that passes the presence
test has been assigned an id. -/
theorem C4_surrogate_keys (rows : List Row) (st : St)
    (h : runAll rows = Except.ok st) :
    (CompInv st.provider_lookup st.providers ∧
      ∀ r, r ∈ dedupRows [] rows → providerPresent r = true →
        hasKey (providerKey r) st.provider_lookup = true) ∧
    (CompInv st.location_lookup st.locations ∧
      ∀ r, r ∈ dedupRows [] rows → locationPresent r = true →
        hasKey (locationKey r) st.location_lookup = true) ∧
    (CompInv st.primary_diagnosis_lookup st.primary_diagnoses ∧
      ∀ r, r ∈ dedupRows [] rows → pdxPresent r = true →
        hasKey (pdxKey r) st.primary_diagnosis_lookup = true) ∧
    (CompInv st.secondary_diagnosis_lookup st.secondary_diagnoses ∧
      ∀ r, r ∈ dedupRows [] rows → sdxPresent r = true →
        hasKey (sdxKey r) st.secondary_diagnosis_lookup = true) ∧
    (CompInv st.treatment_lookup st.treatments ∧
      ∀ r, r ∈ dedupRows [] rows → treatmentPresent r = true →
        hasKey (treatmentKey r) st.treatment_lookup = true) := by
  obtain ⟨stP, hr, hres⟩ := runAll_inv rows st h
  have hac := runFrom_allcomp rows initState stP hr initState_allcomp
  have hck := runFrom_compkeys rows initState stP hr
  obtain ⟨_, _, u3, u4, u5, u6, u7, _, _, _, u11, u12, u13, u14, u15, _, _⟩ :=
    resolver_untouched stP
  rw [hres]
  rw [u3, u4, u5, u6, u7, u11, u12, u13, u14, u15]
  exact ⟨⟨hac.1, fun r hr2 hp => (hck r hr2).1 hp⟩,
         ⟨hac.2.1, fun r hr2 hp => (hck r hr2).2.1 hp⟩,
         ⟨hac.2.2.1, fun r hr2 hp => (hck r hr2).2.2.1 hp⟩,
         ⟨hac.2.2.2.1, fun r hr2 hp => (hck r hr2).2.2.2.1 hp⟩,
         ⟨hac.2.2.2.2, fun r hr2 hp => (hck r hr2).2.2.2.2 hp⟩⟩

/-- Witness for claim C4 on a concrete two-row run. -/
theorem C4_surrogate_keys_witness :
    CompInv (okState (runAll [wRow, wRow2])).provider_lookup
      (okState (runAll [wRow, wRow2])).providers ∧
    hasKey (providerKey wRow)
      (okState (runAll [wRow, wRow2])).provider_lookup = true :=
  ⟨(C4_surrogate_keys [wRow, wRow2] (okState (runAll [wRow, wRow2]))
      (by rfl)).1.1,
   (C4_surrogate_keys [wRow, wRow2] (okState (runAll [wRow, wRow2]))
      (by rfl)).1.2 wRow (by decide) (by decide)⟩

/-- Claim C5: the natural-keyed registries are first-write-wins.  One
processed row never removes or changes a stored patient, insurance,
billing, prescription or lab-order record; each of the four plain upserts
returns the existing key with a completely unchanged state when its key is
already present; the status resolver leaves those four registries
untouched; and it rewrites a stored patient record changing nothing but
the patient_status field, which it sets exactly once from the visit-date
history. -/
theorem C5_first_write_wins :
    (∀ (st : St) (row : Row) (st2 : St),
      processRow st row = Except.ok st2 →
      (∀ k v, findA k st.patients = some v → findA k st2.patients = some v) ∧
      (∀ k v, findA k st.insurances = some v →
        findA k st2.insurances = some v) ∧
      (∀ k v, findA k st.billings = some v → findA k st2.billings = some v) ∧
      (∀ k v, findA k st.prescriptions = some v →
        findA k st2.prescriptions = some v) ∧
      (∀ k v, findA k st.lab_orders = some v →
        findA k st2.lab_orders = some v)) ∧
    (∀ (st : St) (row : Row), hasKey row.insurance_id st.insurances = true →
      processInsurance st row = (st, row.insurance_id)) ∧
    (∀ (st : St) (row : Row) (iid : String),
      hasKey row.billing_id st.billings = true →
      processBilling st row iid = (st, row.billing_id)) ∧
    (∀ (st : St) (row : Row) (p : St × String),
      hasKey row.prescription_id st.prescriptions = true →
      processPrescription st row = Except.ok p →
      p = (st, row.prescription_id)) ∧
    (∀ (st : St) (row : Row), hasKey row.lab_order_id st.lab_orders = true →
      processLabOrder st row = (st, row.lab_order_id)) ∧
    (∀ st : St, (updatePatientStatuses st).insurances = st.insurances ∧
      (updatePatientStatuses st).billings = st.billings ∧
      (updatePatientStatuses st).prescriptions = st.prescriptions ∧
      (updatePatientStatuses st).lab_orders = st.lab_orders) ∧
    (∀ st : St, NodupKeys st.patient_visit_dates →
      ∀ (p : String) (r : Patient), findA p st.patients = some r →
      findA p (updatePatientStatuses st).patients = some
        { r with patient_status :=
            if hasActive p st.patient_visit_dates then "Active"
            else "Inactive" }) := by
  refine ⟨?_, ins_noop, bil_noop, fun st row p hk h => rx_noop st row p hk h,
    lo_noop, ?_, ?_⟩
  · intro st row st2 h
    have m := processRow_mono st row st2 h
    exact ⟨m.pat, m.ins, m.bil, m.pres, m.lab⟩
  · intro st
    obtain ⟨v1, v2, _, _, _, _, _, v8, v9, _⟩ := resolver_untouched st
    exact ⟨v1, v2, v8, v9⟩
  · intro st hnd p r hp
    rw [resolver_find st hnd p, hp]
    rfl

/-- Witness for claim C5: after one processed row, a later row sharing the
insurance, billing, prescription and lab-order keys changes none of them,
and the resolver only rewrites the patient status. -/
theorem C5_first_write_wins_witness :
    (findA "I1" (okState (processRow (okState (runFrom initState [wRow]))
        wRow2)).insurances = some
      { insurance_id := "I1", patient_id := "P1",
        insurance_payer_name := "Payer", insurance_policy_number := "",
        insurance_group_number := "", insurance_plan_type := "" }) ∧
    processInsurance (okState (runFrom initState [wRow])) wRow2 =
      (okState (runFrom initState [wRow]), wRow2.insurance_id) ∧
    processBilling (okState (runFrom initState [wRow])) wRow "IX" =
      (okState (runFrom initState [wRow]), wRow.billing_id) ∧
    ((okState (runFrom initState [wRow]), wRow.prescription_id) :
        St × String) =
      (okState (runFrom initState [wRow]), wRow.prescription_id) ∧
    processLabOrder (okState (runFrom initState [wRow])) wRow =
      (okState (runFrom initState [wRow]), wRow.lab_order_id) ∧
    findA "P1" (updatePatientStatuses
        (okState (runFrom initState [wRow]))).patients = some
      { patient_id := "P1", patient_first_name := "Ann",
        patient_last_name := "", patient_date_of_birth := "1980-03-15",
        patient_gender := "", patient_address_line1 := "",
        patient_address_line2 := "", patient_city := "",
        patient_state := "", patient_zip := "", patient_phone := "",
        patient_email := "",
        patient_status := if hasActive "P1" (okState (runFrom initState
          [wRow])).patient_visit_dates then "Active" else "Inactive" } := by
  refine ⟨?_, ?_, ?_, ?_, ?_, ?_⟩
  · exact ((C5_first_write_wins.1 (okState (runFrom initState [wRow])) wRow2
      (okState (processRow (okState (runFrom initState [wRow])) wRow2))
      (by rfl)).2.1) "I1" _ (by rfl)
  · exact C5_first_write_wins.2.1 (okState (runFrom initState [wRow])) wRow2
      (by decide)
  · exact C5_first_write_wins.2.2.1 (okState (runFrom initState [wRow])) wRow
      "IX" (by decide)
  · exact C5_first_write_wins.2.2.2.1 (okState (runFrom initState [wRow]))
      wRow (okState (runFrom initState [wRow]), wRow.prescription_id)
      (by decide) (by rfl)
  · exact C5_first_write_wins.2.2.2.2.1 (okState (runFrom initState [wRow]))
      wRow (by decide)
  · exact C5_first_write_wins.2.2.2.2.2.2 (okState (runFrom initState [wRow]))
      (by unfold NodupKeys; decide) "P1" _ (by rfl)

/-- Claim C2: after the full pipeline, a stored patient has status Active
exactly when one of the processed (non-duplicate) rows of that patient
carries a visit datetime the datetime normalizer parses to a timestamp on
or after 2022-01-01, and Inactive otherwise — including when every visit
datetime of the patient was unparseable. -/
theorem C2_patient_status (rows : List Row) (st : St) (p : String)
    (r : Patient) (h : runAll rows = Except.ok st)
    (hp : findA p st.patients = some r) :
    r.patient_status =
      (if (dedupRows [] rows).any (goodRow p) then "Active"
       else "Inactive") := by
  obtain ⟨stP, hr, hres⟩ := runAll_inv rows st h
  have hnd := runFrom_nodup rows initState stP hr initState_nodup
  have hha := runFrom_hasActive rows initState stP hr p
  rw [hres, resolver_find stP hnd p] at hp
  cases hf : findA p stP.patients with
  | none =>
    rw [hf] at hp
    simp at hp
  | some r0 =>
    rw [hf] at hp
    simp at hp
    rw [← hp]
    simp only []
    rw [hha]
    have h0 : hasActive p initState.patient_visit_dates = false := by
      simp [hasActive, initState, findA]
    rw [h0]
    simp only [Bool.false_or]
    rfl

/-- Witness for claim C2 on a concrete run: P1 has a 2022 visit and is
Active, P2 only a 2019 visit and is Inactive. -/
theorem C2_patient_status_witness :
    ("Active" : String) =
      (if (dedupRows [] [wRow, wRow2]).any (goodRow "P1") then "Active"
       else "Inactive") ∧
    ("Inactive" : String) =
      (if (dedupRows [] [wRow, wRow2]).any (goodRow "P2") then "Active"
       else "Inactive") := by
  constructor
  · have h := C2_patient_status [wRow, wRow2]
      (okState (runAll [wRow, wRow2])) "P1"
      { patient_id := "P1", patient_first_name := "Ann",
        patient_last_name := "", patient_date_of_birth := "1980-03-15",
        patient_gender := "", patient_address_line1 := "",
        patient_address_line2 := "", patient_city := "",
        patient_state := "", patient_zip := "", patient_phone := "",
        patient_email := "", patient_status := "Active" }
      (by rfl) (by rfl)
    exact h
  · have h := C2_patient_status [wRow, wRow2]
      (okState (runAll [wRow, wRow2])) "P2"
      { patient_id := "P2", patient_first_name := "",
        patient_last_name := "", patient_date_of_birth := "",
        patient_gender := "", patient_address_line1 := "",
        patient_address_line2 := "", patient_city := "",
        patient_state := "", patient_zip := "", patient_phone := "",
        patient_email := "", patient_status := "Inactive" }
      (by rfl) (by rfl)
    exact h

/-- Witness for claim C3: a seen visit id leaves a concrete state
unchanged, and a concrete run with a duplicated visit id yields one fact
per distinct id. -/
theorem C3_duplicate_discard_witness :
    processRow (okState (runFrom initState [wRow])) wRowDup =
      Except.ok (okState (runFrom initState [wRow])) ∧
    (okState (runAll [wRow, wRowDup, wRow2])).visits.map
      FactVisit.visit_id =
      dedupStrs [] ([wRow, wRowDup, wRow2].map Row.visit_id) :=
  ⟨C3_duplicate_discard.1 (okState (runFrom initState [wRow])) wRowDup
     (by decide),
   C3_duplicate_discard.2.2 [wRow, wRowDup, wRow2]
     (okState (runAll [wRow, wRowDup, wRow2])) (by rfl)⟩

/-- Claim C7: the date normalizer is total (a plain function, modelled
without an error channel because no statement in parse_date can raise),
sends the empty string to the empty string, returns verbatim any input
that none of the four recognized layouts accepts, and is idempotent on
every string; the already-canonical 2023-03-15 is returned unchanged and
03/15/2023 normalizes to 2023-03-15. -/
theorem C7_date_normalizer :
    parse_date "" = "" ∧
    (∀ s : String, dateAttempt s.data = none → parse_date s = s) ∧
    (∀ s : String, parse_date (parse_date s) = parse_date s) ∧
    parse_date "2023-03-15" = "2023-03-15" ∧
    parse_date "03/15/2023" = "2023-03-15" :=
  ⟨by decide, fun _ h => parse_date_verbatim h, parse_date_idem,
   by decide, by decide⟩

theorem C7_date_normalizer_witness :
    dateAttempt ("hello".data) = none ∧ parse_date "hello" = "hello" :=
  ⟨by decide, C7_date_normalizer.2.1 "hello" (by decide)⟩

end HealthcareETL
